import Mathlib

/-!
Shallow embedding of the reDIP-CIA trace replay harness (`cia_core_sim.cpp`):
the bus transaction and cycle accounting engine that drives the simulated CIA
device from a textual trace and emits a normalized trace.

The Verilated device model (`Vcia_core`) is an external collaborator; it is
abstracted as a state type with an `eval` step, an output bus word and a debug
ICR snapshot.  Everything else (clock driver, phase driver, register/port/pin
transactions, interrupt edge detection and splicing, trace record parsing and
the replay loop's cycle accounting) is translated line by line from the C++
source.  Machine integers (`uint64_t` bus words, C `int` values) are modelled
as `Nat`/`Int` with explicit truncation `% 2 ^ 64` where overflow matters.
-/

namespace CiaSim

variable {σ : Type}

/-- All 64 bits set: the width mask of the `uint64_t` bus words. -/
def mask64 : Nat := 2 ^ 64 - 1

/-- C `uint64_t(v)` conversion of a (possibly negative) C `int` value:
reduction modulo `2 ^ 64`. -/
def intToU64 (v : Int) : Nat := (v % (2 ^ 64 : Int)).toNat

/-- The opaque Verilated device model (`Vcia_core`).  The harness only uses
`eval()` (recompute outputs from the clock level and the packed input word
`bus_i`), the packed output word `bus_o`, and the debug-only ICR snapshot
`icr`.  It is abstracted as a state type `σ` with these three operations. -/
structure DeviceModel (σ : Type) where
  evalFn : σ → Bool → Nat → σ
  busO : σ → Nat
  icr : σ → Nat

/-- Engine-visible state: the device state plus the harness variables
(`core->model`, `core->rst`, `core->clk`, `core->bus_i`) and the file-static
variables `phi2_hi`, `irq_n_prev`, `tod_count`, `tod_hi`, together with the
replay loop's `skip_cycle` flag.  The replay loop's `cycles_spent` counter is
threaded separately through the record-processing functions. -/
structure LoopState (σ : Type) where
  dev : σ
  model : Nat
  rst : Bool
  clkLevel : Bool
  busI : Nat
  phi2Hi : Bool
  irqNPrev : Bool
  todCount : Nat
  todHi : Bool
  skipCycle : Bool
  deriving DecidableEq, Repr

/-- `timestep`: 125 ps between FPGA clock edges (4 MHz simulation clock). -/
def timestep : Nat := 125

/-- `clk(core)`: drive `core->clk` low, `eval`, advance time, drive high,
`eval`, advance time; then, when a TOD frequency is configured
(`todTimestep ≠ 0`), accumulate elapsed time and toggle the TOD input bit
(bit 2 of `bus_i`) each time half the TOD period has elapsed, keeping the
remainder. -/
def clk (dm : DeviceModel σ) (todTimestep : Nat) (s : LoopState σ) : LoopState σ :=
  let s := { s with clkLevel := false }
  let s := { s with dev := dm.evalFn s.dev s.clkLevel s.busI }
  let s := { s with clkLevel := true }
  let s := { s with dev := dm.evalFn s.dev s.clkLevel s.busI }
  if todTimestep ≠ 0 then
    let cnt := s.todCount + 2 * timestep
    if todTimestep ≤ cnt then
      let hi := !s.todHi
      { s with todCount := cnt - todTimestep, todHi := hi,
               busI := ((s.busI &&& (mask64 ^^^ (1 <<< 2))) ||| ((cond hi 1 0) <<< 2)) % 2 ^ 64 }
    else
      { s with todCount := cnt }
  else s

/-- `clk2(core)`: two FPGA clock periods (2 cycles between PHI2 edges). -/
def clk2 (dm : DeviceModel σ) (todTimestep : Nat) (s : LoopState σ) : LoopState σ :=
  clk dm todTimestep (clk dm todTimestep s)

/-- `phi2(core)`: if not already in the PHI2-high phase, drive PHI2 (bit 35 of
`bus_i`) high and run `clk2`; returns whether we were already in PHI2. -/
def phi2 (dm : DeviceModel σ) (todTimestep : Nat) (s : LoopState σ) : Bool × LoopState σ :=
  let rc := s.phi2Hi
  if !s.phi2Hi then
    let s := { s with busI := (s.busI ||| (1 <<< 35)) % 2 ^ 64 }
    let s := clk2 dm todTimestep s
    (rc, { s with phi2Hi := true })
  else
    (rc, s)

/-- `phi1(core)`: drive PHI2 low, run `clk2`, then release `/CS` and `/W`
(bits 32 and 33 of `bus_i`) and clear the PHI2-high flag. -/
def phi1 (dm : DeviceModel σ) (todTimestep : Nat) (s : LoopState σ) : LoopState σ :=
  let s := { s with busI := s.busI &&& (mask64 ^^^ (1 <<< 35)) }
  let s := clk2 dm todTimestep s
  { s with busI := (s.busI ||| (0b11 <<< 32)) % 2 ^ 64, phi2Hi := false }

/-- `read_reg(core, addr, val)`: set the address and the `/CS`-active,
`/W`-released control bits, enter PHI2 (with a bare `eval` if we were already
in PHI2), and sample the 8-bit read data field (bits 36..43 of `bus_o`). -/
def read_reg (dm : DeviceModel σ) (todTimestep : Nat) (s : LoopState σ) (addr : Int) :
    LoopState σ × Int :=
  let s := { s with
    busI := ((s.busI &&& 0xfffffff) ||| (0b1101 <<< 32) ||| (intToU64 addr <<< 28)) % 2 ^ 64 }
  let p := phi2 dm todTimestep s
  let s := if p.1 then { p.2 with dev := dm.evalFn p.2.dev p.2.clkLevel p.2.busI } else p.2
  (s, ((dm.busO s.dev >>> 36) &&& 0xff : Nat))

/-- `write_reg(core, addr, data)`: set address, write data and the
`/CS`-active, `/W`-active control bits, and enter PHI2 (with a bare `eval` if
we were already in PHI2). -/
def write_reg (dm : DeviceModel σ) (todTimestep : Nat) (s : LoopState σ) (addr data : Int) :
    LoopState σ :=
  let s := { s with
    busI := ((s.busI &&& 0xfffff) ||| (0b1100 <<< 32) ||| (intToU64 addr <<< 28) |||
      (intToU64 data <<< 20)) % 2 ^ 64 }
  let p := phi2 dm todTimestep s
  if p.1 then { p.2 with dev := dm.evalFn p.2.dev p.2.clkLevel p.2.busI } else p.2

/-- Operation symbols, in the order of `static array<string, 3> ops`. -/
def ops : List String := ["W", "R", "I"]

/-- Port names, in the order of `static array<string, 2> ports`. -/
def ports : List String := ["PA", "PB"]

/-- Input pin names, in the order of `static array<string, 5> in_pins`. -/
def in_pins : List String := ["SP", "CNT", "TOD", "FLAG", "RES"]

/-- Output pin names, in the order of `static array<string, 4> out_pins`. -/
def out_pins : List String := ["IRQ", "SP", "CNT", "PC"]

/-- `write_pin(core, ix_pin, val)`: sample output pin `ix_pin` (bit `ix_pin`
of `bus_o`). -/
def write_pin (busO : Nat) (ixPin : Nat) : Int :=
  (((busO % 2 ^ 64) >>> ixPin) &&& 1 : Nat)

/-- `read_pin(core, ix_pin, val)`: apply an input pin value.  `RES`
(index 4) lives at bit 34 of `bus_i`; `SP`/`CNT` (indices 0/1) are first
ANDed with the device's own driven output (bits 1/2 of `bus_o`), modelling a
shared pulled-down line, then applied at bit `ix_pin` of `bus_i`.  Returns
the new `bus_i`. -/
def read_pin (busO busI : Nat) (ixPin : Nat) (val : Int) : Nat :=
  if ixPin = 4 then
    ((busI &&& (mask64 ^^^ (1 <<< 34))) ||| (intToU64 val <<< 34)) % 2 ^ 64
  else
    let v : Int :=
      if ixPin = 0 ∨ ixPin = 1 then
        Int.land ((((busO % 2 ^ 64) >>> (ixPin + 1)) &&& 1 : Nat) : Int) val
      else val
    ((busI &&& (mask64 ^^^ (1 <<< ixPin))) ||| (intToU64 v <<< ixPin)) % 2 ^ 64

/-- `write_port(core, ix_port, val)`: sample a port.  Output driver bits live
at offset 28 (PA) or 20 (PB) of `bus_o`, the corresponding DDR bits 16 lower.
A line is pulled down only where the DDR bit marks it as output:
`val = ((bus_o >> o) | ~(bus_o >> (o - 16))) & 0xff`. -/
def write_port (busO : Nat) (ixPort : Nat) : Nat :=
  let o := if ixPort = 0 then 28 else 20
  (((busO % 2 ^ 64) >>> o) ||| (mask64 ^^^ ((busO % 2 ^ 64) >>> (o - 16)))) &&& 0xff

/-- `read_port(core, ix_port, val)`: apply an external value to a port's
input bits of `bus_i` (offset 12 for PA, 4 for PB).  The DDR-aware mixing
formula present in the source is commented out; the active code latches the
caller's value verbatim.  Returns the new `bus_i`. -/
def read_port (busI : Nat) (ixPort : Nat) (val : Int) : Nat :=
  let i := if ixPort = 0 then 12 else 4
  ((busI &&& (mask64 ^^^ (0xff <<< i))) ||| (intToU64 val <<< i)) % 2 ^ 64

/-- The DDR-aware latching formula the specification states for port writes
(`latched = (output-driver-bits AND ddr) OR (caller-value AND NOT ddr)`).
This is NOT the active code (in the source it is commented out); it is
defined here only to be compared against `read_port`. -/
def read_port_spec (busO : Nat) (ixPort : Nat) (val : Nat) : Nat :=
  let o := if ixPort = 0 then 28 else 20
  let ddr := ((busO % 2 ^ 64) >>> (o - 16)) &&& 0xff
  ((((busO % 2 ^ 64) >>> o) &&& 0xff) &&& ddr) ||| ((val &&& 0xff) &&& (0xff ^^^ ddr))

/-- `interrupt(core, val)`: falling-edge detector on the active-low `/IRQ`
output (bit 0 of `bus_o`).  Fires when the previously sampled level was
inactive (high) and the current level is active (low); on firing, captures
the debug ICR snapshot.  Returns (fired, captured-or-passed-through flags,
state with the previous-level register updated). -/
def interrupt (dm : DeviceModel σ) (s : LoopState σ) (flags : Nat) :
    Bool × Nat × LoopState σ :=
  let irq_n : Bool := ((dm.busO s.dev &&& 1) != 0)
  let irq : Bool := s.irqNPrev && !irq_n
  let s1 := { s with irqNPrev := irq_n }
  if irq then (true, dm.icr s.dev, s1) else (false, flags, s1)

/-- A fatal input error (`input_error`): the 1-based line number, the message
and the verbatim offending line.  In the C++ source this reports to stderr
and exits with a non-zero status; here it is the `Except` error value. -/
structure InputError where
  lineno : Nat
  msg : String
  input : String
  deriving DecidableEq, Repr

/-- One parsed trace record, as produced by `parse_line`: requested cycle
delta, operation index into `ops`, target name, resolved address/index,
value, and the classification `obj` returned by `parse_line`
(0 = register, 1 = port, 2 = output pin, 3 = input pin).  The line number
and the raw line are carried along for error reporting. -/
structure Parsed where
  cycles : Int
  ixOp : Nat
  addrName : String
  addr : Int
  data : Int
  obj : Nat
  lineno : Nat
  line : String
  deriving DecidableEq, Repr

/-- One hexadecimal digit, as accepted by `std::from_chars` base 16. -/
def hexDigitVal (c : Char) : Option Nat :=
  if '0' ≤ c ∧ c ≤ '9' then some (c.toNat - '0'.toNat)
  else if 'a' ≤ c ∧ c ≤ 'f' then some (c.toNat - 'a'.toNat + 10)
  else if 'A' ≤ c ∧ c ≤ 'F' then some (c.toNat - 'A'.toNat + 10)
  else none

/-- Accumulate a hexadecimal digit string; fails on any non-digit. -/
def hexNatAux : List Char → Nat → Option Nat
  | [], acc => some acc
  | c :: cs, acc =>
    match hexDigitVal c with
    | some d => hexNatAux cs (16 * acc + d)
    | none => none

/-- `std::from_chars(first, last, value, 16)` into a C `int`, combined with
the caller's check that the whole token was consumed: an optional leading
minus sign followed by at least one hex digit, spanning the entire string,
with the resulting value within the 32-bit `int` range (out-of-range input
makes `from_chars` report an error which the caller treats the same way). -/
def from_chars_hex (str : String) : Option Int :=
  match str.data with
  | '-' :: cs =>
    if cs = [] then none
    else
      match hexNatAux cs 0 with
      | some m => if m ≤ 2 ^ 31 then some (-(m : Int)) else none
      | none => none
  | cs =>
    if cs = [] then none
    else
      match hexNatAux cs 0 with
      | some m => if m ≤ 2 ^ 31 - 1 then some ((m : Int)) else none
      | none => none

/-- `parse_line`: classify one input record.  The four whitespace-separated
tokens (cycle count already extracted as a C `int`, operation symbol, target
name, value token) are taken as arguments; the classification proceeds
exactly as in the source: operation lookup, value hex-parse, then target
resolution in the fixed order register address, port name, output/input pin
name (pin tables only for the matching operation). -/
def parse_line (lineno : Nat) (line : String) (cycles : Int) (op addrName val : String) :
    Except InputError Parsed :=
  if lineno = 0 then .error ⟨lineno, "Bad format", line⟩
  else
    match List.findIdx? (fun o => o == op) ops with
    | none => .error ⟨lineno, "Invalid operation", line⟩
    | some ixOp =>
      match from_chars_hex val with
      | none => .error ⟨lineno, "Invalid value", line⟩
      | some data =>
        match from_chars_hex addrName with
        | some addr =>
          if addr < 0x0 ∨ 0xF < addr ∨ (ixOp = 2 ∧ addr ≠ 0xD) then
            .error ⟨lineno, "Invalid address", line⟩
          else if data < 0x0 ∨ 0xFF < data then
            .error ⟨lineno, "Invalid value", line⟩
          else
            .ok ⟨cycles, ixOp, addrName, addr, data, 0, lineno, line⟩
        | none =>
          match List.findIdx? (fun p => p == addrName) ports with
          | some ix =>
            if data < 0x0 ∨ 0xFF < data then .error ⟨lineno, "Invalid value", line⟩
            else .ok ⟨cycles, ixOp, addrName, (ix : Int), data, 1, lineno, line⟩
          | none =>
            if ixOp = 0 then
              match List.findIdx? (fun p => p == addrName) out_pins with
              | some ix =>
                if data < 0 ∨ 1 < data then .error ⟨lineno, "Invalid value", line⟩
                else .ok ⟨cycles, ixOp, addrName, (ix : Int), data, 2, lineno, line⟩
              | none => .error ⟨lineno, "Invalid pin/port name", line⟩
            else if ixOp = 1 then
              match List.findIdx? (fun p => p == addrName) in_pins with
              | some ix =>
                if data < 0 ∨ 1 < data then .error ⟨lineno, "Invalid value", line⟩
                else .ok ⟨cycles, ixOp, addrName, (ix : Int), data, 3, lineno, line⟩
              | none => .error ⟨lineno, "Invalid pin/port name", line⟩
            else .error ⟨lineno, "Invalid pin/port name", line⟩

/-- One emitted output record: cycle delta, operation symbol, target name,
value, and whether the pin layout (`fmt_pin`, decimal value) is used instead
of the register/port layout (two hex digits). -/
structure OutRec where
  delta : Int
  op : String
  target : String
  value : Int
  pin : Bool
  deriving DecidableEq, Repr

/-- The startup block of `main` (lines 401-408): create the core, select the
model, drive `clk` and `rst` low, zero `bus_i`, then release `/RES`, `/CS`
and `/W` (bits 32-34) and release `/FLAG`, `CNT` and `SP` (bits 3, 1, 0).
The file-static state (`phi2_hi`, `irq_n_prev`, `tod_count`, `tod_hi`) and
the loop-local `skip_cycle` carry their initializers.  No bus cycle is
executed here: the device state is the given `d`, unevaluated. -/
def initState (d : σ) (model : Nat) : LoopState σ :=
  { dev := d
    model := model
    rst := false
    clkLevel := false
    busI := (0 ||| (0b111 <<< 32)) ||| 0b1011
    phi2Hi := false
    irqNPrev := true
    todCount := 0
    todHi := false
    skipCycle := false }

/-- The body of one iteration of the wait loop, before the interrupt sample:
`if (!skip_cycle) { phi2(core); phi1(core); } skip_cycle = false;`. -/
def stepPhase (dm : DeviceModel σ) (todTimestep : Nat) (s : LoopState σ) : LoopState σ :=
  let s1 := if s.skipCycle then s else phi1 dm todTimestep (phi2 dm todTimestep s).2
  { s1 with skipCycle := false }

/-- Fuel-indexed form of the wait loop of `main` (lines 432-448).  The fuel
is exactly the number of remaining iterations, `(cycles - i).toNat`, which
decreases by one every iteration (also on an interrupt splice, which resets
`i` to 0 but shrinks `cycles` by `i + 1`); `waitLoop` instantiates it.
Arguments and results: state, `cycles` (mutated on splices), `i`,
`cycles_spent`, `irq`, `flags`, emitted records. -/
def waitLoopF (dm : DeviceModel σ) (todTimestep : Nat) :
    Nat → LoopState σ → Int → Int → Int → Bool → Nat → List OutRec →
    LoopState σ × Int × Int × Bool × Nat × List OutRec
  | 0, s, cycles, _, cs, irq, flags, out => (s, cycles, cs, irq, flags, out)
  | fuel + 1, s, cycles, i, cs, irq, flags, out =>
    if i < cycles then
      if (interrupt dm (stepPhase dm todTimestep s) flags).1 = true ∧ i + 1 < cycles then
        waitLoopF dm todTimestep fuel (interrupt dm (stepPhase dm todTimestep s) flags).2.2
          (cycles - (i + 1)) 0 0 false (interrupt dm (stepPhase dm todTimestep s) flags).2.1
          (out ++ [⟨cs + (i + 1), "I", "D",
            ((interrupt dm (stepPhase dm todTimestep s) flags).2.1 : Int), false⟩])
      else
        waitLoopF dm todTimestep fuel (interrupt dm (stepPhase dm todTimestep s) flags).2.2
          cycles (i + 1) cs (interrupt dm (stepPhase dm todTimestep s) flags).1
          (interrupt dm (stepPhase dm todTimestep s) flags).2.1 out
    else (s, cycles, cs, irq, flags, out)

/-- The wait loop of `main` (lines 432-448): step `cycles` bus cycles (the
first one elided when a skip is pending), sampling the interrupt edge
detector after each; a firing strictly before the wait is consumed emits a
synthesized `I` record with delta `cycles_spent + i`, resets `cycles_spent`,
and re-bases `cycles`/`i`. -/
def waitLoop (dm : DeviceModel σ) (todTimestep : Nat) (s : LoopState σ)
    (cycles i cs : Int) (irq : Bool) (flags : Nat) (out : List OutRec) :
    LoopState σ × Int × Int × Bool × Nat × List OutRec :=
  waitLoopF dm todTimestep (cycles - i).toNat s cycles i cs irq flags out

/-- The operation dispatch of `main` (lines 455-492), after the wait loop:
register writes/reads call `write_reg`/`read_reg`; an interrupt input record
on a register folds the (possibly re-based) remaining `cycles` into
`cycles_spent`; port/pin writes step one extra bus cycle (unless a skip is
pending) and set `skip_cycle`, then sample; port/pin reads apply the value
to `bus_i`.  Returns (state, `cycles_spent`, record value `data`). -/
def applyOp (dm : DeviceModel σ) (todTimestep : Nat) (s1 : LoopState σ)
    (cs1 cycles : Int) (r : Parsed) : LoopState σ × Int × Int :=
  if r.obj = 0 then
    if r.ixOp < 2 then
      if r.ixOp = 0 then (write_reg dm todTimestep s1 r.addr r.data, cs1, r.data)
      else
        let rr := read_reg dm todTimestep s1 r.addr
        (rr.1, cs1, rr.2)
    else (s1, cs1 + cycles, r.data)
  else if r.obj = 1 then
    if r.ixOp = 0 then
      let s2 := if s1.skipCycle then s1
        else { phi1 dm todTimestep (phi2 dm todTimestep s1).2 with skipCycle := true }
      (s2, cs1, (write_port (dm.busO s2.dev) r.addr.toNat : Int))
    else ({ s1 with busI := read_port s1.busI r.addr.toNat r.data }, cs1, r.data)
  else
    if r.ixOp = 0 then
      let s2 := if s1.skipCycle then s1
        else { phi1 dm todTimestep (phi2 dm todTimestep s1).2 with skipCycle := true }
      (s2, cs1, write_pin (dm.busO s2.dev) r.addr.toNat)
    else
      ({ s1 with busI := read_pin (dm.busO s1.dev) s1.busI r.addr.toNat r.data }, cs1, r.data)

/-- Processing of one input record by the replay loop of `main` (lines
425-510), after parsing: run the wait loop, check the pending-skip protocol
error, dispatch the operation, emit the record for R/W operations, and emit
a trailing `I` record when the edge detector fired on the wait's last cycle.
Threads (state, `cycles_spent`) and returns the emitted records. -/
def processRecord (dm : DeviceModel σ) (todTimestep : Nat) (s : LoopState σ)
    (cs : Int) (r : Parsed) : Except InputError (LoopState σ × Int × List OutRec) :=
  let w := waitLoop dm todTimestep s r.cycles 0 cs false 0 []
  let s1 := w.1
  let cycles := w.2.1
  let cs1 := w.2.2.1
  let irq := w.2.2.2.1
  let flags := w.2.2.2.2.1
  let outI := w.2.2.2.2.2
  if s1.skipCycle = true ∧ (r.obj = 0 ∨ 0 < r.ixOp) then
    .error ⟨r.lineno, "Previously skipped cycle", r.line⟩
  else
    let q := applyOp dm todTimestep s1 cs1 cycles r
    let s3 := q.1
    let cs2 := q.2.1
    let data := q.2.2
    let e1 : List OutRec × Int :=
      if r.ixOp < 2 then
        ([⟨cs2 + cycles, ops.getD r.ixOp "", r.addrName, data, decide (1 < r.obj)⟩], 0)
      else ([], cs2)
    let e2 : List OutRec × Int :=
      if irq = true then ([⟨e1.2, "I", "D", (flags : Int), false⟩], 0)
      else ([], e1.2)
    .ok (s3, e2.2, outI ++ e1.1 ++ e2.1)

/-- Process a list of parsed records in sequence, collecting the records
emitted for each input record as one group (the full output stream is the
concatenation of the groups). -/
def processTrace (dm : DeviceModel σ) (todTimestep : Nat) :
    LoopState σ → Int → List Parsed →
    Except InputError (LoopState σ × Int × List (List OutRec))
  | s, cs, [] => .ok (s, cs, [])
  | s, cs, r :: rs =>
    match processRecord dm todTimestep s cs r with
    | .error e => .error e
    | .ok (s1, cs1, g) =>
      match processTrace dm todTimestep s1 cs1 rs with
      | .error e => .error e
      | .ok (s2, cs2, gs) => .ok (s2, cs2, g :: gs)

/-- One full wait-loop iteration (stepping plus edge-detector sample), as a
state transformer; the flags argument of `interrupt` does not affect the
state. -/
def cycleStep (dm : DeviceModel σ) (todTimestep : Nat) (s : LoopState σ) : LoopState σ :=
  (interrupt dm (stepPhase dm todTimestep s) 0).2.2

/-- Iterate `cycleStep` n times. -/
def runCycles (dm : DeviceModel σ) (todTimestep : Nat) (s : LoopState σ) : Nat → LoopState σ
  | 0 => s
  | n + 1 => runCycles dm todTimestep (cycleStep dm todTimestep s) n

/-- The edge-detector sample produced by the next wait-loop iteration from
state `s`: (fired, ICR snapshot captured if fired). -/
def irqAt1 (dm : DeviceModel σ) (todTimestep : Nat) (s : LoopState σ) : Bool × Nat :=
  ((interrupt dm (stepPhase dm todTimestep s) 0).1,
   (interrupt dm (stepPhase dm todTimestep s) 0).2.1)

/-- Whether the edge detector fires on the `k`-th iteration (1-based) of an
uninterrupted wait started from state `s`. -/
def irqAtCycle (dm : DeviceModel σ) (todTimestep : Nat) (s : LoopState σ) (k : Nat) : Bool :=
  (irqAt1 dm todTimestep (runCycles dm todTimestep s (k - 1))).1

/-- The ICR snapshot captured on the `k`-th iteration (1-based) of an
uninterrupted wait started from state `s`. -/
def icrAtCycle (dm : DeviceModel σ) (todTimestep : Nat) (s : LoopState σ) (k : Nat) : Nat :=
  (irqAt1 dm todTimestep (runCycles dm todTimestep s (k - 1))).2

/-- Sum of the cycle deltas of a list of output records. -/
def sumD (l : List OutRec) : Int := (l.map OutRec.delta).sum

/-- Sum of the requested cycle deltas of a list of parsed records. -/
def sumCycles (rs : List Parsed) : Int := (rs.map Parsed.cycles).sum

deriving instance DecidableEq for Except

/-! ### Concrete device-model instances used to evaluate the engine -/

/-- A trivial device: no internal state, `/IRQ` always released (bit 0 of
`bus_o` high), so the edge detector never fires. -/
def quietDm : DeviceModel Unit := ⟨fun _ _ _ => (), fun _ => 1, fun _ => 0⟩

/-- An eval-counting device: the state counts `eval()` calls (one full bus
cycle performs 8), `/IRQ` always released. -/
def countDm : DeviceModel Nat := ⟨fun s _ _ => s + 1, fun _ => 1, fun _ => 0⟩

/-- An eval-counting device whose `/IRQ` output falls after 24 `eval()`
calls, i.e. exactly 3 bus cycles into a wait started from a fresh state; the
ICR snapshot reads 0x81. -/
def edgeDm : DeviceModel Nat :=
  ⟨fun s _ _ => s + 1, fun s => if s < 24 then 1 else 0, fun _ => 0x81⟩

/-- A stateless device driving all PA output and PA DDR bits high (offsets
28 and 12 of `bus_o`), `/IRQ` released. -/
def mixDm : DeviceModel Unit :=
  ⟨fun _ _ _ => (), fun _ => (0xFF <<< 28) ||| (0xFF <<< 12) ||| 1, fun _ => 0⟩

/-! ### Basic lemmas about the edge detector and the stepping functions -/

theorem interrupt_state (dm : DeviceModel σ) (s : LoopState σ) (f : Nat) :
    (interrupt dm s f).2.2 = { s with irqNPrev := ((dm.busO s.dev &&& 1) != 0) } := by
  simp only [interrupt]
  by_cases hc : (s.irqNPrev && !((dm.busO s.dev &&& 1) != 0)) = true
  · rw [if_pos hc]
  · rw [if_neg hc]

theorem interrupt_fst (dm : DeviceModel σ) (s : LoopState σ) (f : Nat) :
    (interrupt dm s f).1 = (s.irqNPrev && !((dm.busO s.dev &&& 1) != 0)) := by
  simp only [interrupt]
  by_cases hc : (s.irqNPrev && !((dm.busO s.dev &&& 1) != 0)) = true
  · rw [if_pos hc, hc]
  · rw [if_neg hc]
    simp only [Bool.not_eq_true] at hc
    rw [hc]

theorem interrupt_flags_of_false (dm : DeviceModel σ) (s : LoopState σ) (f : Nat)
    (h : (interrupt dm s f).1 = false) : (interrupt dm s f).2.1 = f := by
  have hx : (s.irqNPrev && !((dm.busO s.dev &&& 1) != 0)) = false := by
    rw [← interrupt_fst dm s f]
    exact h
  simp only [interrupt]
  rw [if_neg (by rw [hx]; exact Bool.false_ne_true)]

theorem interrupt_flags_of_true (dm : DeviceModel σ) (s : LoopState σ) (f : Nat)
    (h : (interrupt dm s f).1 = true) : (interrupt dm s f).2.1 = dm.icr s.dev := by
  have hx : (s.irqNPrev && !((dm.busO s.dev &&& 1) != 0)) = true := by
    rw [← interrupt_fst dm s f]
    exact h
  simp only [interrupt]
  rw [if_pos hx]

theorem stepPhase_skipCycle (dm : DeviceModel σ) (tt : Nat) (s : LoopState σ) :
    (stepPhase dm tt s).skipCycle = false := by
  unfold stepPhase
  split <;> rfl

theorem cycleStep_skipCycle (dm : DeviceModel σ) (tt : Nat) (s : LoopState σ) :
    (cycleStep dm tt s).skipCycle = false := by
  unfold cycleStep
  rw [interrupt_state]
  exact stepPhase_skipCycle dm tt s

theorem runCycles_succ (dm : DeviceModel σ) (tt : Nat) (s : LoopState σ) (n : Nat) :
    runCycles dm tt s (n + 1) = runCycles dm tt (cycleStep dm tt s) n := rfl

theorem runCycles_skipCycle (dm : DeviceModel σ) (tt : Nat) (s : LoopState σ) (n : Nat)
    (h : 1 ≤ n) : (runCycles dm tt s n).skipCycle = false := by
  induction n generalizing s with
  | zero => omega
  | succ m ih =>
    rcases Nat.eq_zero_or_pos m with hm | hm
    · subst hm
      exact cycleStep_skipCycle dm tt s
    · rw [runCycles_succ]
      exact ih (cycleStep dm tt s) hm

theorem irqAtCycle_shift (dm : DeviceModel σ) (tt : Nat) (s : LoopState σ) (k : Nat)
    (h : 1 ≤ k) : irqAtCycle dm tt (cycleStep dm tt s) k = irqAtCycle dm tt s (k + 1) := by
  unfold irqAtCycle
  obtain ⟨m, rfl⟩ : ∃ m, k = m + 1 := ⟨k - 1, by omega⟩
  rfl

theorem icrAtCycle_shift (dm : DeviceModel σ) (tt : Nat) (s : LoopState σ) (k : Nat)
    (h : 1 ≤ k) : icrAtCycle dm tt (cycleStep dm tt s) k = icrAtCycle dm tt s (k + 1) := by
  unfold icrAtCycle
  obtain ⟨m, rfl⟩ : ∃ m, k = m + 1 := ⟨k - 1, by omega⟩
  rfl

theorem interrupt_snd_snd_flags (dm : DeviceModel σ) (s : LoopState σ) (f : Nat) :
    (interrupt dm s f).2.2 = (interrupt dm s 0).2.2 := by
  rw [interrupt_state, interrupt_state]

theorem interrupt_fst_flags (dm : DeviceModel σ) (s : LoopState σ) (f : Nat) :
    (interrupt dm s f).1 = (interrupt dm s 0).1 := by
  rw [interrupt_fst, interrupt_fst]

/-! ### The wait loop: one-step unfolding and behavioral lemmas -/

theorem waitLoop_def (dm : DeviceModel σ) (tt : Nat) (s : LoopState σ)
    (cycles i cs : Int) (irq : Bool) (flags : Nat) (out : List OutRec) :
    waitLoop dm tt s cycles i cs irq flags out =
      waitLoopF dm tt (cycles - i).toNat s cycles i cs irq flags out := rfl

/-- One-step unfolding of the wait loop: when the guard `i < cycles` holds,
one iteration steps a cycle (unless skipped), samples the edge detector, and
either splices an `I` record (firing strictly before the wait ends) or
carries on. -/
theorem waitLoop_eq (dm : DeviceModel σ) (tt : Nat) (s : LoopState σ)
    (cycles i cs : Int) (irq : Bool) (flags : Nat) (out : List OutRec) :
    waitLoop dm tt s cycles i cs irq flags out =
      if i < cycles then
        if (interrupt dm (stepPhase dm tt s) flags).1 = true ∧ i + 1 < cycles then
          waitLoop dm tt (interrupt dm (stepPhase dm tt s) flags).2.2
            (cycles - (i + 1)) 0 0 false (interrupt dm (stepPhase dm tt s) flags).2.1
            (out ++ [⟨cs + (i + 1), "I", "D",
              ((interrupt dm (stepPhase dm tt s) flags).2.1 : Int), false⟩])
        else
          waitLoop dm tt (interrupt dm (stepPhase dm tt s) flags).2.2
            cycles (i + 1) cs (interrupt dm (stepPhase dm tt s) flags).1
            (interrupt dm (stepPhase dm tt s) flags).2.1 out
      else (s, cycles, cs, irq, flags, out) := by
  by_cases h : i < cycles
  · obtain ⟨m, hm⟩ : ∃ m, (cycles - i).toNat = m + 1 := ⟨(cycles - i).toNat - 1, by omega⟩
    rw [if_pos h, waitLoop_def, hm]
    show (if i < cycles then _ else _) = _
    rw [if_pos h]
    have h1 : ((cycles - (i + 1)) - 0).toNat = m := by omega
    have h2 : (cycles - (i + 1)).toNat = m := by omega
    rw [waitLoop_def, waitLoop_def, h1, h2]
  · rw [if_neg h, waitLoop_def]
    rcases hm : (cycles - i).toNat with _ | m
    · rfl
    · show (if i < cycles then _ else _) = _
      rw [if_neg h]

theorem waitLoop_exit (dm : DeviceModel σ) (tt : Nat) (s : LoopState σ)
    (cycles i cs : Int) (irq : Bool) (flags : Nat) (out : List OutRec)
    (h : cycles ≤ i) :
    waitLoop dm tt s cycles i cs irq flags out = (s, cycles, cs, irq, flags, out) := by
  rw [waitLoop_eq, if_neg (by omega)]

/-- A wait during which the edge detector never fires: the loop just steps
`n = cycles - i` cycles, leaving `cycles`, `cycles_spent`, `flags` and the
output untouched. -/
theorem waitLoop_quiet (dm : DeviceModel σ) (tt : Nat) :
    ∀ (n : Nat) (s : LoopState σ) (cycles i cs : Int) (irq : Bool) (flags : Nat)
      (out : List OutRec),
      i ≤ cycles → cycles - i = (n : Int) →
      (∀ k, 1 ≤ k → k ≤ n → irqAtCycle dm tt s k = false) →
      waitLoop dm tt s cycles i cs irq flags out =
        (runCycles dm tt s n, cycles, cs, if n = 0 then irq else false, flags, out) := by
  intro n
  induction n with
  | zero =>
    intro s cycles i cs irq flags out hle hn _
    rw [waitLoop_exit dm tt s cycles i cs irq flags out (by omega)]
    rfl
  | succ m ih =>
    intro s cycles i cs irq flags out hle hn hq
    have hlt : i < cycles := by omega
    have hq1 : (interrupt dm (stepPhase dm tt s) flags).1 = false := by
      rw [interrupt_fst_flags]
      exact hq 1 le_rfl (by omega)
    rw [waitLoop_eq, if_pos hlt, if_neg (by simp [hq1])]
    rw [interrupt_flags_of_false dm _ flags hq1, hq1, interrupt_snd_snd_flags]
    have ih' := ih (cycleStep dm tt s) cycles (i + 1) cs false flags out (by omega) (by omega)
      (fun k h1 h2 => by
        rw [irqAtCycle_shift dm tt s k h1]
        exact hq (k + 1) (by omega) (by omega))
    rw [show (interrupt dm (stepPhase dm tt s) 0).2.2 = cycleStep dm tt s from rfl, ih']
    simp [runCycles_succ]

/-- A wait whose first firing of the edge detector happens on the `j`-th
further iteration, strictly before the wait ends: the loop emits one
synthesized `I` record with delta `cycles_spent + (i + j)` and the captured
ICR value, resets `cycles_spent` to 0 and re-bases the remaining count. -/
theorem waitLoop_edge (dm : DeviceModel σ) (tt : Nat) :
    ∀ (j : Nat) (s : LoopState σ) (cycles i cs : Int) (irq : Bool) (flags : Nat)
      (out : List OutRec),
      1 ≤ j → i + (j : Int) < cycles →
      (∀ k, 1 ≤ k → k < j → irqAtCycle dm tt s k = false) →
      irqAtCycle dm tt s j = true →
      waitLoop dm tt s cycles i cs irq flags out =
        waitLoop dm tt (runCycles dm tt s j) (cycles - (i + (j : Int))) 0 0 false
          (icrAtCycle dm tt s j)
          (out ++ [⟨cs + (i + (j : Int)), "I", "D", (icrAtCycle dm tt s j : Int), false⟩]) := by
  intro j
  induction j with
  | zero => omega
  | succ m ih =>
    intro s cycles i cs irq flags out _ hlt hq hedge
    rcases Nat.eq_zero_or_pos m with hm | hm
    · subst hm
      have hi1 : i + 1 < cycles := by push_cast at hlt; omega
      have ht1 : (interrupt dm (stepPhase dm tt s) flags).1 = true := by
        rw [interrupt_fst_flags]
        exact hedge
      rw [waitLoop_eq, if_pos (by omega), if_pos ⟨ht1, hi1⟩]
      rw [interrupt_flags_of_true dm _ flags ht1, interrupt_snd_snd_flags]
      have hicr : icrAtCycle dm tt s 1 = dm.icr (stepPhase dm tt s).dev := by
        unfold icrAtCycle irqAt1 runCycles
        exact interrupt_flags_of_true dm _ 0 (by rw [interrupt_fst_flags] at ht1; exact ht1)
      rw [hicr]
      rfl
    · have hs1 : (interrupt dm (stepPhase dm tt s) flags).1 = false := by
        rw [interrupt_fst_flags]
        exact hq 1 le_rfl (by omega)
      rw [waitLoop_eq, if_pos (by push_cast at hlt ⊢; omega), if_neg (by simp [hs1])]
      rw [interrupt_flags_of_false dm _ flags hs1, hs1, interrupt_snd_snd_flags]
      have ih' := ih (cycleStep dm tt s) cycles (i + 1) cs false flags out hm
        (by push_cast at hlt ⊢; omega)
        (fun k h1 h2 => by
          rw [irqAtCycle_shift dm tt s k h1]
          exact hq (k + 1) (by omega) (by omega))
        (by rw [irqAtCycle_shift dm tt s m hm]; exact hedge)
      rw [show (interrupt dm (stepPhase dm tt s) 0).2.2 = cycleStep dm tt s from rfl, ih']
      rw [icrAtCycle_shift dm tt s m hm, ← runCycles_succ]
      have harith : i + 1 + (m : Int) = i + ((m : Nat) + 1 : Nat) := by push_cast; ring
      rw [harith]

/-- Cycle conservation through the wait loop: whatever interrupts are
spliced, the records appended by the loop are all `I` records on the debug
target, and their emitted deltas plus the final `cycles_spent` and the final
(re-based) `cycles` equal the incoming `cycles_spent + cycles`.  When at
least one iteration runs, the final state has no pending skip. -/
theorem waitLoop_conserve (dm : DeviceModel σ) (tt : Nat) :
    ∀ (n : Nat) (s : LoopState σ) (cycles i cs : Int) (irq : Bool) (flags : Nat)
      (out : List OutRec) (s' : LoopState σ) (cycles' cs' : Int) (irq' : Bool)
      (flags' : Nat) (out' : List OutRec),
      (cycles - i).toNat = n →
      waitLoop dm tt s cycles i cs irq flags out = (s', cycles', cs', irq', flags', out') →
      ∃ new, out' = out ++ new ∧
        (∀ x ∈ new, x.op = "I" ∧ x.target = "D" ∧ x.pin = false) ∧
        sumD new + cs' + cycles' = cs + cycles ∧
        (i < cycles → s'.skipCycle = false) ∧ (cycles ≤ i → s' = s ∧ cycles' = cycles ∧ cs' = cs) := by
  intro n
  induction n with
  | zero =>
    intro s cycles i cs irq flags out s' cycles' cs' irq' flags' out' hn hw
    rw [waitLoop_exit dm tt s cycles i cs irq flags out (by omega)] at hw
    simp only [Prod.mk.injEq] at hw
    obtain ⟨rfl, rfl, rfl, rfl, rfl, rfl⟩ := hw
    exact ⟨[], by simp, by simp, by simp [sumD], by omega, fun _ => ⟨rfl, rfl, rfl⟩⟩
  | succ m ih =>
    intro s cycles i cs irq flags out s' cycles' cs' irq' flags' out' hn hw
    have hlt : i < cycles := by omega
    rw [waitLoop_eq, if_pos hlt] at hw
    by_cases hsp : (interrupt dm (stepPhase dm tt s) flags).1 = true ∧ i + 1 < cycles
    · rw [if_pos hsp] at hw
      have hrec := ih (interrupt dm (stepPhase dm tt s) flags).2.2 (cycles - (i + 1)) 0 0 false
        (interrupt dm (stepPhase dm tt s) flags).2.1
        (out ++ [⟨cs + (i + 1), "I", "D",
          ((interrupt dm (stepPhase dm tt s) flags).2.1 : Int), false⟩])
        s' cycles' cs' irq' flags' out' (by omega) hw
      obtain ⟨new2, hout, hI, hsum, hskip, hexit⟩ := hrec
      refine ⟨⟨cs + (i + 1), "I", "D",
        ((interrupt dm (stepPhase dm tt s) flags).2.1 : Int), false⟩ :: new2, ?_, ?_, ?_, ?_, ?_⟩
      · simpa using hout
      · intro x hx
        rcases List.mem_cons.mp hx with hx1 | hx1
        · subst hx1
          exact ⟨rfl, rfl, rfl⟩
        · exact hI x hx1
      · simp only [sumD, List.map_cons, List.sum_cons] at hsum ⊢
        omega
      · intro _
        rcases lt_or_le 0 (cycles - (i + 1)) with hcc | hcc
        · exact hskip (by omega)
        · obtain ⟨heq, _, _⟩ := hexit (by omega)
          rw [heq, interrupt_state]
          exact stepPhase_skipCycle dm tt s
      · intro hc
        omega
    · rw [if_neg hsp] at hw
      have hrec := ih (interrupt dm (stepPhase dm tt s) flags).2.2 cycles (i + 1) cs
        (interrupt dm (stepPhase dm tt s) flags).1
        (interrupt dm (stepPhase dm tt s) flags).2.1 out
        s' cycles' cs' irq' flags' out' (by omega) hw
      obtain ⟨new2, hout, hI, hsum, hskip, hexit⟩ := hrec
      refine ⟨new2, hout, hI, hsum, ?_, ?_⟩
      · intro _
        rcases lt_or_le (i + 1) cycles with hcc | hcc
        · exact hskip hcc
        · obtain ⟨heq, _, _⟩ := hexit hcc
          rw [heq, interrupt_state]
          exact stepPhase_skipCycle dm tt s
      · intro hc
        omega

/-! ### Per-record lemmas about `processRecord` -/

theorem applyOp_cs_rw (dm : DeviceModel σ) (tt : Nat) (s1 : LoopState σ) (cs1 cycles : Int)
    (r : Parsed) (h2 : r.ixOp < 2) : (applyOp dm tt s1 cs1 cycles r).2.1 = cs1 := by
  unfold applyOp
  split_ifs <;> first | rfl | omega

theorem applyOp_cs_ireg (dm : DeviceModel σ) (tt : Nat) (s1 : LoopState σ) (cs1 cycles : Int)
    (r : Parsed) (hobj : r.obj = 0) (h2 : ¬ r.ixOp < 2) :
    (applyOp dm tt s1 cs1 cycles r).2.1 = cs1 + cycles := by
  unfold applyOp
  split_ifs <;> first | rfl | omega

theorem applyOp_cs_notreg (dm : DeviceModel σ) (tt : Nat) (s1 : LoopState σ) (cs1 cycles : Int)
    (r : Parsed) (hobj : r.obj ≠ 0) : (applyOp dm tt s1 cs1 cycles r).2.1 = cs1 := by
  unfold applyOp
  split_ifs <;> first | rfl | omega

theorem applyOp_state_ireg (dm : DeviceModel σ) (tt : Nat) (s1 : LoopState σ) (cs1 cycles : Int)
    (r : Parsed) (hobj : r.obj = 0) (h2 : ¬ r.ixOp < 2) :
    (applyOp dm tt s1 cs1 cycles r).1 = s1 := by
  unfold applyOp
  split_ifs <;> first | rfl | omega

/-- Shape and accounting of the record group emitted for one R/W input
record: some spliced `I` records, then the record's own output record (with
the input's operation symbol and target, the pin/register layout chosen by
the parse classification, and delta closing the accounting to
`cycles_spent + requested cycles`), then possibly one trailing `I` record of
delta 0; `cycles_spent` leaves as 0. -/
theorem processRecord_rw (dm : DeviceModel σ) (tt : Nat) (s : LoopState σ) (cs : Int)
    (r : Parsed) (s' : LoopState σ) (cs' : Int) (outs : List OutRec)
    (h2 : r.ixOp < 2)
    (h : processRecord dm tt s cs r = .ok (s', cs', outs)) :
    cs' = 0 ∧ ∃ pre own post, outs = pre ++ own :: post ∧
      (∀ x ∈ pre, x.op = "I" ∧ x.target = "D") ∧
      own.op = ops.getD r.ixOp "" ∧ own.target = r.addrName ∧
      own.pin = decide (1 < r.obj) ∧
      (∀ x ∈ post, x.op = "I" ∧ x.target = "D" ∧ x.delta = 0) ∧
      sumD pre + own.delta = cs + r.cycles := by
  rcases hw : waitLoop dm tt s r.cycles 0 cs false 0 [] with
    ⟨s1, cycles1, cs1, irq1, flags1, out1⟩
  obtain ⟨new, hnew, hI, hsum, -, -⟩ := waitLoop_conserve dm tt _ s r.cycles 0 cs false 0 []
    s1 cycles1 cs1 irq1 flags1 out1 rfl hw
  simp only [List.nil_append] at hnew
  subst hnew
  simp only [processRecord, hw] at h
  split at h
  · exact absurd h (by simp)
  · simp only [if_pos h2, applyOp_cs_rw dm tt s1 cs1 cycles1 r h2] at h
    by_cases hirq : irq1 = true
    · simp only [if_pos hirq] at h
      simp only [Except.ok.injEq, Prod.mk.injEq] at h
      obtain ⟨-, hcs, houts⟩ := h
      refine ⟨hcs.symm, out1, ⟨cs1 + cycles1, ops.getD r.ixOp "", r.addrName,
        (applyOp dm tt s1 cs1 cycles1 r).2.2, decide (1 < r.obj)⟩,
        [⟨0, "I", "D", (flags1 : Int), false⟩], ?_, ?_, rfl, rfl, rfl, ?_, ?_⟩
      · rw [← houts]
        simp
      · intro x hx
        exact ⟨(hI x hx).1, (hI x hx).2.1⟩
      · intro x hx
        simp only [List.mem_singleton] at hx
        subst hx
        exact ⟨rfl, rfl, rfl⟩
      · show sumD out1 + (cs1 + cycles1) = cs + r.cycles
        omega
    · simp only [if_neg hirq] at h
      simp only [Except.ok.injEq, Prod.mk.injEq] at h
      obtain ⟨-, hcs, houts⟩ := h
      refine ⟨hcs.symm, out1, ⟨cs1 + cycles1, ops.getD r.ixOp "", r.addrName,
        (applyOp dm tt s1 cs1 cycles1 r).2.2, decide (1 < r.obj)⟩, [], ?_, ?_, rfl, rfl, rfl,
        by simp, ?_⟩
      · rw [← houts]
        simp
      · intro x hx
        exact ⟨(hI x hx).1, (hI x hx).2.1⟩
      · show sumD out1 + (cs1 + cycles1) = cs + r.cycles
        omega

/-- A record whose operation is not R or W (an interrupt input record) emits
only `I` records; when its target is a register, the emitted deltas plus the
outgoing `cycles_spent` account exactly for the incoming `cycles_spent` plus
the record's requested cycles. -/
theorem processRecord_i (dm : DeviceModel σ) (tt : Nat) (s : LoopState σ) (cs : Int)
    (r : Parsed) (s' : LoopState σ) (cs' : Int) (outs : List OutRec)
    (h2 : ¬ r.ixOp < 2)
    (h : processRecord dm tt s cs r = .ok (s', cs', outs)) :
    (∀ x ∈ outs, x.op = "I" ∧ x.target = "D") ∧
    (r.obj = 0 → sumD outs + cs' = cs + r.cycles) := by
  rcases hw : waitLoop dm tt s r.cycles 0 cs false 0 [] with
    ⟨s1, cycles1, cs1, irq1, flags1, out1⟩
  obtain ⟨new, hnew, hI, hsum, -, -⟩ := waitLoop_conserve dm tt _ s r.cycles 0 cs false 0 []
    s1 cycles1 cs1 irq1 flags1 out1 rfl hw
  simp only [List.nil_append] at hnew
  subst hnew
  simp only [processRecord, hw] at h
  split at h
  · exact absurd h (by simp)
  · simp only [if_neg h2] at h
    by_cases hirq : irq1 = true
    · simp only [if_pos hirq] at h
      simp only [Except.ok.injEq, Prod.mk.injEq] at h
      obtain ⟨-, hcs, houts⟩ := h
      constructor
      · intro x hx
        rw [← houts] at hx
        rcases List.mem_append.mp hx with hx1 | hx1
        · simp only [List.append_nil] at hx1
          exact ⟨(hI x hx1).1, (hI x hx1).2.1⟩
        · simp only [List.mem_singleton] at hx1
          subst hx1
          exact ⟨rfl, rfl⟩
      · intro hobj
        rw [← houts, ← hcs]
        simp only [applyOp_cs_ireg dm tt s1 cs1 cycles1 r hobj h2] at *
        simp only [sumD, List.map_append, List.sum_append] at hsum ⊢
        simp
        omega
    · simp only [if_neg hirq] at h
      simp only [Except.ok.injEq, Prod.mk.injEq] at h
      obtain ⟨-, hcs, houts⟩ := h
      constructor
      · intro x hx
        rw [← houts] at hx
        rcases List.mem_append.mp hx with hx1 | hx1
        · simp only [List.append_nil] at hx1
          exact ⟨(hI x hx1).1, (hI x hx1).2.1⟩
        · simp at hx1
      · intro hobj
        rw [← houts, ← hcs]
        simp only [applyOp_cs_ireg dm tt s1 cs1 cycles1 r hobj h2]
        simp only [sumD, List.map_append, List.sum_append] at hsum ⊢
        simp
        omega

/-! ### Trace-level lemmas -/

theorem processTrace_cons_inv (dm : DeviceModel σ) (tt : Nat) (s : LoopState σ) (cs : Int)
    (r : Parsed) (rs : List Parsed) (s2 : LoopState σ) (cs2 : Int) (u : List (List OutRec))
    (h : processTrace dm tt s cs (r :: rs) = .ok (s2, cs2, u)) :
    ∃ s1 cs1 g gs, processRecord dm tt s cs r = .ok (s1, cs1, g) ∧
      processTrace dm tt s1 cs1 rs = .ok (s2, cs2, gs) ∧ u = g :: gs := by
  rcases hpr : processRecord dm tt s cs r with e | ⟨s1, cs1, g⟩
  · simp only [processTrace, hpr] at h
    exact absurd h (by simp)
  · simp only [processTrace, hpr] at h
    rcases hpt : processTrace dm tt s1 cs1 rs with e | ⟨s2', cs2', gs⟩
    · simp only [hpt] at h
      exact absurd h (by simp)
    · simp only [hpt, Except.ok.injEq, Prod.mk.injEq] at h
      obtain ⟨rfl, rfl, rfl⟩ := h
      exact ⟨s1, cs1, g, gs, rfl, hpt, rfl⟩

theorem processTrace_append_inv (dm : DeviceModel σ) (tt : Nat) (bs : List Parsed) :
    ∀ (as : List Parsed) (s : LoopState σ) (cs : Int) (s2 : LoopState σ) (cs2 : Int)
      (u : List (List OutRec)),
      processTrace dm tt s cs (as ++ bs) = .ok (s2, cs2, u) →
      ∃ s1 cs1 gs hs, processTrace dm tt s cs as = .ok (s1, cs1, gs) ∧
        processTrace dm tt s1 cs1 bs = .ok (s2, cs2, hs) ∧ u = gs ++ hs ∧
        gs.length = as.length := by
  intro as
  induction as with
  | nil =>
    intro s cs s2 cs2 u h
    exact ⟨s, cs, [], u, rfl, h, by simp, rfl⟩
  | cons r rs ih =>
    intro s cs s2 cs2 u h
    rw [List.cons_append] at h
    obtain ⟨sa, csa, g, gs', hpr, hpt, rfl⟩ :=
      processTrace_cons_inv dm tt s cs r (rs ++ bs) s2 cs2 u h
    obtain ⟨s1, cs1, gs, hs, h1, h2, rfl, hlen⟩ := ih sa csa s2 cs2 gs' hpt
    refine ⟨s1, cs1, g :: gs, hs, ?_, h2, by simp, by simp [hlen]⟩
    simp only [processTrace, hpr, h1]

/-- A run of interrupt input records targeting registers: every emitted
record is an `I` record, and the emitted deltas plus the outgoing
`cycles_spent` account for the incoming `cycles_spent` plus all requested
cycles. -/
theorem processTrace_iregs (dm : DeviceModel σ) (tt : Nat) :
    ∀ (mid : List Parsed) (s : LoopState σ) (cs : Int) (s' : LoopState σ) (cs' : Int)
      (gs : List (List OutRec)),
      (∀ r ∈ mid, r.ixOp = 2 ∧ r.obj = 0) →
      processTrace dm tt s cs mid = .ok (s', cs', gs) →
      (∀ g ∈ gs, ∀ x ∈ g, x.op = "I" ∧ x.target = "D") ∧
      sumD gs.flatten + cs' = cs + sumCycles mid := by
  intro mid
  induction mid with
  | nil =>
    intro s cs s' cs' gs _ h
    rw [processTrace] at h
    simp only [Except.ok.injEq, Prod.mk.injEq] at h
    obtain ⟨rfl, rfl, rfl⟩ := h
    simp [sumD, sumCycles]
  | cons r rs ih =>
    intro s cs s' cs' gs hmid h
    obtain ⟨s1, cs1, g, gs', hpr, hpt, rfl⟩ := processTrace_cons_inv dm tt s cs r rs s' cs' gs h
    obtain ⟨hop, hobj⟩ := hmid r (by simp)
    have hI := processRecord_i dm tt s cs r s1 cs1 g (by omega) hpr
    have hrest := ih s1 cs1 s' cs' gs' (fun x hx => hmid x (by simp [hx])) hpt
    constructor
    · intro gg hgg
      rcases List.mem_cons.mp hgg with h1 | h1
      · subst h1
        exact hI.1
      · exact hrest.1 gg h1
    · have h1 := hI.2 hobj
      have h2 := hrest.2
      simp only [List.flatten_cons, sumD, List.map_append, List.sum_append, sumCycles,
        List.map_cons, List.sum_cons] at h1 h2 ⊢
      omega

theorem ops_getD_ne_I (ix : Nat) (h : ix < 2) : ops.getD ix "" ≠ "I" := by
  have : ix = 0 ∨ ix = 1 := by omega
  rcases this with rfl | rfl <;> simp [ops]

/-- Order preservation: the non-`I` records of the full output stream are,
in order, exactly one record per R/W input record, carrying that record's
operation symbol and target name. -/
theorem processTrace_order (dm : DeviceModel σ) (tt : Nat) :
    ∀ (rs : List Parsed) (s : LoopState σ) (cs : Int) (s' : LoopState σ) (cs' : Int)
      (gs : List (List OutRec)),
      processTrace dm tt s cs rs = .ok (s', cs', gs) →
      ((gs.flatten.filter (fun x => !(x.op == "I"))).map (fun x => (x.op, x.target))) =
        ((rs.filter (fun r => r.ixOp < 2)).map
          (fun r => (ops.getD r.ixOp "", r.addrName))) := by
  intro rs
  induction rs with
  | nil =>
    intro s cs s' cs' gs h
    rw [processTrace] at h
    simp only [Except.ok.injEq, Prod.mk.injEq] at h
    obtain ⟨rfl, rfl, rfl⟩ := h
    simp
  | cons r rs ih =>
    intro s cs s' cs' gs h
    obtain ⟨s1, cs1, g, gs', hpr, hpt, rfl⟩ := processTrace_cons_inv dm tt s cs r rs s' cs' gs h
    have hrest := ih s1 cs1 s' cs' gs' hpt
    by_cases h2 : r.ixOp < 2
    · obtain ⟨-, pre, own, post, rfl, hpre, hop, htgt, -, hpost, -⟩ :=
        processRecord_rw dm tt s cs r s1 cs1 _ h2 hpr
      have hpre0 : pre.filter (fun x => !(x.op == "I")) = [] := by
        rw [List.filter_eq_nil_iff]
        intro a ha
        simp [(hpre a ha).1]
      have hpost0 : post.filter (fun x => !(x.op == "I")) = [] := by
        rw [List.filter_eq_nil_iff]
        intro a ha
        simp [(hpost a ha).1]
      have hown : (!(own.op == "I")) = true := by
        rw [hop]
        have hne := ops_getD_ne_I r.ixOp h2
        simp only [Bool.not_eq_true', beq_eq_false_iff_ne, ne_eq]
        exact hne
      have hfil : List.filter (fun x => !(x.op == "I")) (pre ++ own :: post) = [own] := by
        rw [List.filter_append, List.filter_cons, hpre0, hpost0, if_pos hown]
        simp
      rw [List.flatten_cons, List.filter_append, hfil, List.filter_cons,
        if_pos (show (decide (r.ixOp < 2)) = true by simpa using h2)]
      simp only [List.map_append, List.map_cons, List.map_nil, List.singleton_append,
        List.cons_append, List.nil_append]
      rw [hrest, hop, htgt]
    · have hI := (processRecord_i dm tt s cs r s1 cs1 g h2 hpr).1
      have hg0 : g.filter (fun x => !(x.op == "I")) = [] := by
        rw [List.filter_eq_nil_iff]
        intro a ha
        simp [(hI a ha).1]
      simp only [List.flatten_cons, List.filter_append, hg0, List.nil_append]
      rw [List.filter_cons, if_neg (by simpa using h2)]
      exact hrest

/-! ### Bit-level lemmas for the port operations -/

theorem write_port_testBit (busO ix k : Nat) (hk : k < 8) :
    (write_port busO ix).testBit k =
      (((busO % 2 ^ 64) >>> (if ix = 0 then 28 else 20)).testBit k ||
        !(((busO % 2 ^ 64) >>> ((if ix = 0 then 28 else 20) - 16)).testBit k)) := by
  unfold write_port
  have h255 : (0xff : Nat) = 2 ^ 8 - 1 := by norm_num
  have h64 : mask64 = 2 ^ 64 - 1 := rfl
  rw [h255, h64, Nat.testBit_land, Nat.testBit_lor, Nat.testBit_xor,
    Nat.testBit_two_pow_sub_one, Nat.testBit_two_pow_sub_one]
  have hk64 : decide (k < 64) = true := by simp; omega
  have hk8 : decide (k < 8) = true := by simp [hk]
  rw [hk64, hk8]
  simp

theorem write_port_lt (busO ix : Nat) : write_port busO ix < 256 := by
  have h : write_port busO ix ≤ 0xff := Nat.and_le_right
  omega

/-- C4: whenever the engine samples a port (PA or PB), every bit of the
sampled byte equals (output-driver bit) OR NOT(direction-register bit): a
bit reads back the driven value where the DDR marks it as output, and reads
released/high where the DDR marks it as input. -/
theorem c4_port_sample_bits (busO ix k : Nat) (hk : k < 8) :
    (write_port busO ix).testBit k =
      (((busO % 2 ^ 64) >>> (if ix = 0 then 28 else 20)).testBit k ||
        !(((busO % 2 ^ 64) >>> ((if ix = 0 then 28 else 20) - 16)).testBit k)) :=
  write_port_testBit busO ix k hk

theorem c4_port_sample_bits_witness :
    (4 : Nat) < 8 ∧
    (write_port ((0xF0 <<< 28) ||| (0x0F <<< 12)) 0).testBit 4 =
      (((((0xF0 <<< 28) ||| (0x0F <<< 12) : Nat) % 2 ^ 64) >>>
          (if (0 : Nat) = 0 then 28 else 20)).testBit 4 ||
        !(((((0xF0 <<< 28) ||| (0x0F <<< 12) : Nat) % 2 ^ 64) >>>
          ((if (0 : Nat) = 0 then 28 else 20) - 16)).testBit 4)) :=
  ⟨by decide, c4_port_sample_bits ((0xF0 <<< 28) ||| (0x0F <<< 12)) 0 4 (by decide)⟩

/-- C5 counterexample: with the output-driver byte `0xF0` and the
direction-register byte `0x0F` (PA offsets 28 and 12 of `bus_o`), sampling
port PA does NOT yield `0xFF` as the claim states: the DDR-set bits 0-3 are
driven and read back the (low) output bits.  The claimed arithmetic
`0xF0 | ~0x0F & 0xFF` in fact equals `0xF0`. -/
theorem c5_counterexample :
    write_port ((0xF0 <<< 28) ||| (0x0F <<< 12)) 0 ≠ 0xFF := by decide

/-- C5 (amended): sampling a port whose output-driver byte is `0xF0` and
whose direction-register byte is `0x0F` yields `0xF0`: bits 0-3 (DDR set,
driven) read back the output-driver bits (0), bits 4-7 (DDR clear, not
driven) read released/high (1). -/
theorem write_port_testBit_pa (busO k : Nat) (hk : k < 8) (hb : busO < 2 ^ 64) :
    (write_port busO 0).testBit k =
      ((busO >>> 28).testBit k || !((busO >>> 12).testBit k)) := by
  rw [write_port_testBit busO 0 k hk, Nat.mod_eq_of_lt hb]
  norm_num

theorem c5_port_sample_f0_0f (busO : Nat) (hb : busO < 2 ^ 64)
    (hout : (busO >>> 28) &&& 0xff = 0xF0) (hddr : (busO >>> 12) &&& 0xff = 0x0F) :
    write_port busO 0 = 0xF0 := by
  have h255 : (0xff : Nat) = 2 ^ 8 - 1 := by norm_num
  have hbit : ∀ j, ∀ x : Nat, ∀ c : Nat, (x &&& 0xff) = c → j < 8 →
      x.testBit j = c.testBit j := by
    intro j x c hc hj
    have h := congrArg (fun n => n.testBit j) hc
    simp only at h
    rw [Nat.testBit_land, h255, Nat.testBit_two_pow_sub_one] at h
    simpa [hj] using h
  apply Nat.eq_of_testBit_eq
  intro k
  by_cases hk : k < 8
  · rw [write_port_testBit_pa busO k hk hb]
    rw [hbit k _ _ hout hk, hbit k _ _ hddr hk]
    interval_cases k <;> decide
  · have hle : (256 : Nat) ≤ 2 ^ k := by
      calc (256 : Nat) = 2 ^ 8 := by norm_num
        _ ≤ 2 ^ k := Nat.pow_le_pow_right (by norm_num) (by omega)
    have h1 : write_port busO 0 < 2 ^ k := lt_of_lt_of_le (write_port_lt busO 0) hle
    have h2 : (0xF0 : Nat) < 2 ^ k := lt_of_lt_of_le (by norm_num) hle
    rw [Nat.testBit_lt_two_pow h1, Nat.testBit_lt_two_pow h2]

theorem c5_port_sample_f0_0f_witness :
    (((0xF0 <<< 28) ||| (0x0F <<< 12) : Nat) < 2 ^ 64) ∧
    ((((0xF0 <<< 28) ||| (0x0F <<< 12) : Nat) >>> 28) &&& 0xff = 0xF0) ∧
    ((((0xF0 <<< 28) ||| (0x0F <<< 12) : Nat) >>> 12) &&& 0xff = 0x0F) ∧
    write_port ((0xF0 <<< 28) ||| (0x0F <<< 12)) 0 = 0xF0 :=
  ⟨by decide, by decide, by decide,
    c5_port_sample_f0_0f ((0xF0 <<< 28) ||| (0x0F <<< 12)) (by decide) (by decide) (by decide)⟩

/-- The latched port byte under `read_port` is the caller's value verbatim:
helper over the raw bit computation. -/
theorem read_port_byte (busI i vn : Nat) (hi : i = 12 ∨ i = 4) (hv : vn < 256) :
    ((((busI &&& (mask64 ^^^ (0xff <<< i))) ||| (vn <<< i)) % 2 ^ 64) >>> i) &&& 0xff = vn := by
  have h255 : (0xff : Nat) = 2 ^ 8 - 1 := by norm_num
  have h64 : mask64 = 2 ^ 64 - 1 := rfl
  apply Nat.eq_of_testBit_eq
  intro k
  by_cases hk : k < 8
  · have hik : i + k < 64 := by rcases hi with rfl | rfl <;> omega
    rw [Nat.testBit_land, Nat.testBit_shiftRight, Nat.testBit_mod_two_pow, Nat.testBit_lor,
      Nat.testBit_land, Nat.testBit_xor, Nat.testBit_shiftLeft, Nat.testBit_shiftLeft,
      h64, h255, Nat.testBit_two_pow_sub_one, Nat.testBit_two_pow_sub_one,
      Nat.testBit_two_pow_sub_one]
    have e1 : i + k - i = k := by omega
    have e2 : i ≤ i + k := by omega
    simp [hik, hk, e1, e2]
  · have hle : (256 : Nat) ≤ 2 ^ k := by
      calc (256 : Nat) = 2 ^ 8 := by norm_num
        _ ≤ 2 ^ k := Nat.pow_le_pow_right (by norm_num) (by omega)
    rw [Nat.testBit_land]
    have hf : Nat.testBit 0xff k = false :=
      Nat.testBit_lt_two_pow (lt_of_lt_of_le (by norm_num) hle)
    rw [hf, Bool.and_false]
    exact (Nat.testBit_lt_two_pow (lt_of_lt_of_le hv hle)).symm

/-- C6 counterexample: processing the port read record `0 R PA 00` against a
device driving all PA output bits high with all PA DDR bits set as outputs
latches `0x00` (the caller's value, verbatim) into the PA input bits of
`bus_i`, whereas the claimed formula
`(output AND ddr) OR (value AND NOT ddr)` evaluates to `0xFF`. -/
theorem c6_counterexample :
    read_port_spec ((0xFF <<< 28) ||| (0xFF <<< 12) ||| 1) 0 0 = 0xFF ∧
    (processRecord mixDm 0 (initState () 1) 0 ⟨0, 1, "PA", 0, 0, 1, 1, "0 R PA 00"⟩).map
      (fun x => (x.1.busI >>> 12) &&& 0xFF) = .ok 0 ∧
    (0 : Nat) ≠ 0xFF :=
  ⟨by decide, by decide, by decide⟩

/-- C6 (amended): for every port write applying an external value to PA or
PB, the byte latched into the device's port input bits of `bus_i` equals the
caller's value verbatim, for all 8 bits; the direction register plays no
role (the DDR-aware mixing formula is present in the source only as
commented-out code). -/
theorem c6_port_latch_verbatim (busI : Nat) (ix : Nat) (val : Int)
    (h0 : 0 ≤ val) (h1 : val ≤ 0xFF) :
    ((read_port busI ix val) >>> (if ix = 0 then 12 else 4)) &&& 0xFF = val.toNat := by
  have hv : intToU64 val = val.toNat := by
    unfold intToU64
    rw [Int.emod_eq_of_lt h0 (by omega)]
  have hvn : val.toNat < 256 := by omega
  unfold read_port
  rw [hv]
  exact read_port_byte busI (if ix = 0 then 12 else 4) val.toNat
    (by split_ifs <;> simp) hvn

theorem c6_port_latch_verbatim_witness :
    (0 : Int) ≤ 0x3C ∧ (0x3C : Int) ≤ 0xFF ∧
    ((read_port (initState () 1).busI 0 0x3C) >>> (if (0 : Nat) = 0 then 12 else 4)) &&& 0xFF =
      (0x3C : Int).toNat :=
  ⟨by decide, by decide, c6_port_latch_verbatim (initState () 1).busI 0 0x3C (by decide) (by decide)⟩

/-- C9 counterexample: the startup block (source lines 401-408) performs no
bus cycle at all before the first trace record and never asserts the reset:
the device state handed to the first record is the initial one, untouched
(`dev = 0` for the eval-counting device: a full bus cycle would have
performed 8 evals), the `rst` field is 0, and the `/RES` bit of `bus_i`
(bit 34) is released (high), contradicting the claimed
assert-reset/run-one-cycle/deassert sequence. -/
theorem c9_counterexample :
    (initState (0 : Nat) 1).dev = 0 ∧
    (initState (0 : Nat) 1).rst = false ∧
    ((initState (0 : Nat) 1).busI >>> 34) &&& 1 = 1 :=
  ⟨rfl, rfl, by decide⟩

/-- C9 (amended): at startup the engine sets the model, drives `clk` and the
`rst` field low (reset deasserted), and presets `bus_i` with the inactive
(released, logical high) levels of `/W`, `/CS` and `/RES` (bits 32-34) and
released `SP`, `CNT` and `/FLAG` inputs (bits 0, 1, 3), the TOD input low;
no bus cycle is executed before the first record (the device state is
untouched), and the phase and skip flags start cleared. -/
theorem c9_startup_levels (σ : Type) (d : σ) (model : Nat) :
    (initState d model).dev = d ∧
    (initState d model).model = model ∧
    (initState d model).rst = false ∧
    (initState d model).clkLevel = false ∧
    Nat.testBit (initState d model).busI 32 = true ∧
    Nat.testBit (initState d model).busI 33 = true ∧
    Nat.testBit (initState d model).busI 34 = true ∧
    Nat.testBit (initState d model).busI 0 = true ∧
    Nat.testBit (initState d model).busI 1 = true ∧
    Nat.testBit (initState d model).busI 3 = true ∧
    Nat.testBit (initState d model).busI 2 = false ∧
    Nat.testBit (initState d model).busI 35 = false ∧
    (initState d model).phi2Hi = false ∧
    (initState d model).irqNPrev = true ∧
    (initState d model).skipCycle = false := by
  have hb : (initState d model).busI = (((0 ||| (0b111 <<< 32)) ||| 0b1011 : Nat)) := rfl
  refine ⟨rfl, rfl, rfl, rfl, ?_, ?_, ?_, ?_, ?_, ?_, ?_, ?_, rfl, rfl, rfl⟩ <;>
    (rw [hb]; decide)

/-- C7 counterexample: processing the interrupt input record `5 I D 00`
(register target) from the fresh state DOES step bus cycles immediately:
the eval-counting device advances by 40 evals (5 full bus cycles), while
the claim states no bus cycles are stepped when the record is processed.
The cycle delta is folded into the carried counter (5) and no record is
emitted. -/
theorem c7_counterexample :
    (processRecord countDm 0 (initState 0 1) 0 ⟨5, 2, "D", 0xD, 0, 0, 1, "5 I D 00"⟩).map
      (fun x => (x.1.dev, x.2.1, x.2.2)) = .ok (40, 5, []) ∧ (40 : Nat) ≠ 0 :=
  ⟨by decide, by decide⟩

/-- C7 (amended): for every interrupt (I) input record targeting a register,
the requested cycles ARE stepped on the device at processing time exactly
like any other wait (the resulting state is `runCycles` of the incoming
state); what is folded into the following real instruction is only the
accounting: the cycle delta is added to the carried `cycles_spent` counter,
and no output record is emitted for the record itself (none at all when the
edge detector stays quiet during the wait). -/
theorem c7_interrupt_record_stepping (σ : Type) (dm : DeviceModel σ) (tt : Nat)
    (s : LoopState σ) (cs : Int) (r : Parsed) (N : Nat)
    (hop : r.ixOp = 2) (hobj : r.obj = 0) (hskip : s.skipCycle = false)
    (hcyc : r.cycles = (N : Int))
    (hq : ∀ k, k < N + 1 → 1 ≤ k → irqAtCycle dm tt s k = false) :
    processRecord dm tt s cs r = .ok (runCycles dm tt s N, cs + (N : Int), []) := by
  have hql := waitLoop_quiet dm tt N s r.cycles 0 cs false 0 []
    (by rw [hcyc]; exact Int.ofNat_nonneg N)
    (by rw [hcyc]; ring)
    (fun k h1 h2 => hq k (by omega) h1)
  have hsk : (runCycles dm tt s N).skipCycle = false := by
    rcases Nat.eq_zero_or_pos N with rfl | hN
    · exact hskip
    · exact runCycles_skipCycle dm tt s N hN
  simp only [processRecord, hql]
  rw [if_neg (by simp [hsk])]
  rw [applyOp_state_ireg dm tt _ cs r.cycles r hobj (by omega),
    applyOp_cs_ireg dm tt _ cs r.cycles r hobj (by omega)]
  rw [if_neg (show ¬ r.ixOp < 2 by omega)]
  rw [if_neg (show ¬ ((if N = 0 then false else false) = true) by simp [ite_self])]
  rw [hcyc]
  rfl

/-- C8 counterexample: with a cycle-skip pending (set by the pin write
`0 W IRQ 0`), the following PORT WRITE `0 W PA 12` is NOT a fatal protocol
violation as the claim states: it is processed normally and an output
record IS written for that line (the port sample). -/
theorem c8_counterexample :
    (processTrace quietDm 0 (initState () 1) 0
      [⟨0, 0, "IRQ", 0, 0, 2, 1, "0 W IRQ 0"⟩, ⟨0, 0, "PA", 0, 0x12, 1, 2, "0 W PA 12"⟩]).map
      (fun x => x.2.2) =
    .ok [[⟨0, "W", "IRQ", 1, true⟩], [⟨0, "W", "PA", 0xFF, false⟩]] ∧
    parse_line 2 "0 W PA 12" 0 "W" "PA" "12" = .ok ⟨0, 0, "PA", 0, 0x12, 1, 2, "0 W PA 12"⟩ :=
  ⟨by decide, by decide⟩

/-- C8 (amended): when a cycle-skip is still pending after the wait (the
record requested no cycles), processing is the fatal error
`Previously skipped cycle` (reported with the 1-based line number and the
verbatim line, no output record emitted) IF AND ONLY IF the record is a
register access (any operation) or a read/interrupt operation; port writes
and pin writes instead reuse the pending cycle and proceed. -/
theorem c8_pending_skip_error (σ : Type) (dm : DeviceModel σ) (tt : Nat)
    (s : LoopState σ) (cs : Int) (r : Parsed)
    (hskip : s.skipCycle = true) (hc : r.cycles ≤ 0) :
    (processRecord dm tt s cs r =
      .error ⟨r.lineno, "Previously skipped cycle", r.line⟩) ↔
    (r.obj = 0 ∨ 0 < r.ixOp) := by
  have hw := waitLoop_exit dm tt s r.cycles 0 cs false 0 [] (by omega)
  simp only [processRecord, hw]
  by_cases hcond : r.obj = 0 ∨ 0 < r.ixOp
  · rw [if_pos ⟨hskip, hcond⟩]
    simp [hcond]
  · rw [if_neg (by simp only [hskip]; simpa using hcond)]
    simp [hcond]

theorem c8_pending_skip_error_witness :
    ({ initState () 1 with skipCycle := true } : LoopState Unit).skipCycle = true ∧
    (⟨0, 0, "PA", 0, 0x12, 1, 2, "0 W PA 12"⟩ : Parsed).cycles ≤ 0 ∧
    ((processRecord quietDm 0 { initState () 1 with skipCycle := true } 0
        ⟨0, 0, "PA", 0, 0x12, 1, 2, "0 W PA 12"⟩ =
      .error ⟨(⟨0, 0, "PA", 0, 0x12, 1, 2, "0 W PA 12"⟩ : Parsed).lineno,
        "Previously skipped cycle", (⟨0, 0, "PA", 0, 0x12, 1, 2, "0 W PA 12"⟩ : Parsed).line⟩) ↔
      ((⟨0, 0, "PA", 0, 0x12, 1, 2, "0 W PA 12"⟩ : Parsed).obj = 0 ∨
        0 < (⟨0, 0, "PA", 0, 0x12, 1, 2, "0 W PA 12"⟩ : Parsed).ixOp)) :=
  ⟨by decide, by decide,
    c8_pending_skip_error Unit quietDm 0 { initState () 1 with skipCycle := true } 0
      ⟨0, 0, "PA", 0, 0x12, 1, 2, "0 W PA 12"⟩ (by decide) (by decide)⟩

/-- C10: an interrupt (I) record targeting a port name is accepted by
`parse_line` (the port-name lookup does not check the operation symbol) and
classified as a port (`obj = 1`); it is then processed as a port read, its
value applied to the port input bits of `bus_i` via `read_port`, no output
record is emitted for it, and — although the requested cycles are stepped on
the device — its cycle delta is NOT added to the carried `cycles_spent`
counter, so those cycles disappear from the emitted accounting. -/
theorem c10_port_interrupt_record (σ : Type) (dm : DeviceModel σ) (tt : Nat)
    (s : LoopState σ) (cs : Int) (lineno : Nat) (line valStr : String)
    (c : Int) (r : Parsed) (N : Nat)
    (hparse : parse_line lineno line c "I" "PA" valStr = .ok r)
    (hskip : s.skipCycle = false) (hcyc : r.cycles = (N : Int))
    (hq : ∀ k, k < N + 1 → 1 ≤ k → irqAtCycle dm tt s k = false) :
    r.obj = 1 ∧ r.ixOp = 2 ∧ r.cycles = c ∧
    processRecord dm tt s cs r =
      .ok ({ runCycles dm tt s N with
        busI := read_port (runCycles dm tt s N).busI 0 r.data }, cs, []) := by
  have hops : List.findIdx? (fun o => o == "I") ops = some 2 := by decide
  have hpa : from_chars_hex "PA" = none := by decide
  have hport : List.findIdx? (fun p => p == "PA") ports = some 0 := by decide
  by_cases hl : lineno = 0
  · rw [parse_line, if_pos hl] at hparse
    exact absurd hparse (by simp)
  · rw [parse_line, if_neg hl] at hparse
    simp only [hops, hpa, hport] at hparse
    rcases hv : from_chars_hex valStr with _ | data
    · simp only [hv] at hparse
      exact absurd hparse (by simp)
    · simp only [hv] at hparse
      by_cases hrange : data < 0x0 ∨ 0xFF < data
      · rw [if_pos hrange] at hparse
        exact absurd hparse (by simp)
      · rw [if_neg hrange] at hparse
        simp only [Except.ok.injEq] at hparse
        subst hparse
        refine ⟨rfl, rfl, rfl, ?_⟩
        have hc : c = (N : Int) := hcyc
        have hql := waitLoop_quiet dm tt N s c 0 cs false 0 []
          (by rw [hc]; exact Int.ofNat_nonneg N)
          (by rw [hc]; ring)
          (fun k h1 h2 => hq k (by omega) h1)
        have hsk : (runCycles dm tt s N).skipCycle = false := by
          rcases Nat.eq_zero_or_pos N with rfl | hN
          · exact hskip
          · exact runCycles_skipCycle dm tt s N hN
        simp only [processRecord, hql]
        rw [if_neg (by simp [hsk])]
        simp only [applyOp]
        norm_num

theorem c10_port_interrupt_record_witness :
    (parse_line 1 "4 I PA 3C" 4 "I" "PA" "3C" =
      .ok ⟨4, 2, "PA", 0, 0x3C, 1, 1, "4 I PA 3C"⟩) ∧
    (initState (0 : Nat) 1).skipCycle = false ∧
    ((⟨4, 2, "PA", 0, 0x3C, 1, 1, "4 I PA 3C"⟩ : Parsed).cycles = ((4 : Nat) : Int)) ∧
    (∀ k, k < (4 : Nat) + 1 → 1 ≤ k → irqAtCycle countDm 0 (initState (0 : Nat) 1) k = false) ∧
    ((⟨4, 2, "PA", 0, 0x3C, 1, 1, "4 I PA 3C"⟩ : Parsed).obj = 1 ∧
      (⟨4, 2, "PA", 0, 0x3C, 1, 1, "4 I PA 3C"⟩ : Parsed).ixOp = 2 ∧
      (⟨4, 2, "PA", 0, 0x3C, 1, 1, "4 I PA 3C"⟩ : Parsed).cycles = 4 ∧
      processRecord countDm 0 (initState (0 : Nat) 1) 7 ⟨4, 2, "PA", 0, 0x3C, 1, 1, "4 I PA 3C"⟩ =
        .ok ({ runCycles countDm 0 (initState (0 : Nat) 1) 4 with
          busI := read_port (runCycles countDm 0 (initState (0 : Nat) 1) 4).busI 0
            (⟨4, 2, "PA", 0, 0x3C, 1, 1, "4 I PA 3C"⟩ : Parsed).data }, 7, [])) :=
  ⟨by decide, by decide, by decide, by decide,
    c10_port_interrupt_record Nat countDm 0 (initState 0 1) 7 1 "4 I PA 3C" "3C"
      4 ⟨4, 2, "PA", 0, 0x3C, 1, 1, "4 I PA 3C"⟩ 4 (by decide) (by decide) (by decide)
      (by decide)⟩

theorem c7_interrupt_record_stepping_witness :
    ((⟨5, 2, "D", 0xD, 0, 0, 1, "5 I D 00"⟩ : Parsed).ixOp = 2) ∧
    ((⟨5, 2, "D", 0xD, 0, 0, 1, "5 I D 00"⟩ : Parsed).obj = 0) ∧
    (initState (0 : Nat) 1).skipCycle = false ∧
    ((⟨5, 2, "D", 0xD, 0, 0, 1, "5 I D 00"⟩ : Parsed).cycles = ((5 : Nat) : Int)) ∧
    (∀ k, k < (5 : Nat) + 1 → 1 ≤ k → irqAtCycle countDm 0 (initState (0 : Nat) 1) k = false) ∧
    processRecord countDm 0 (initState (0 : Nat) 1) 2 ⟨5, 2, "D", 0xD, 0, 0, 1, "5 I D 00"⟩ =
      .ok (runCycles countDm 0 (initState (0 : Nat) 1) 5, 2 + ((5 : Nat) : Int), []) :=
  ⟨by decide, by decide, by decide, by decide, by decide,
    c7_interrupt_record_stepping Nat countDm 0 (initState 0 1) 2
      ⟨5, 2, "D", 0xD, 0, 0, 1, "5 I D 00"⟩ 5 (by decide) (by decide) (by decide) (by decide)
      (by decide)⟩

/-! ### Eval-counting lemmas for the `countDm` device (TOD disabled) -/

theorem countDm_clk_dev (s : LoopState Nat) : (clk countDm 0 s).dev = s.dev + 2 := by
  simp [clk, countDm]

theorem countDm_clk_phi2Hi (s : LoopState Nat) : (clk countDm 0 s).phi2Hi = s.phi2Hi := by
  simp [clk, countDm]

theorem countDm_clk_skipCycle (s : LoopState Nat) : (clk countDm 0 s).skipCycle = s.skipCycle := by
  simp [clk, countDm]

theorem countDm_clk2_dev (s : LoopState Nat) : (clk2 countDm 0 s).dev = s.dev + 4 := by
  rw [clk2, countDm_clk_dev, countDm_clk_dev]

theorem countDm_clk2_phi2Hi (s : LoopState Nat) : (clk2 countDm 0 s).phi2Hi = s.phi2Hi := by
  rw [clk2, countDm_clk_phi2Hi, countDm_clk_phi2Hi]

theorem countDm_clk2_skipCycle (s : LoopState Nat) :
    (clk2 countDm 0 s).skipCycle = s.skipCycle := by
  rw [clk2, countDm_clk_skipCycle, countDm_clk_skipCycle]

theorem countDm_phi2_dev (s : LoopState Nat) :
    ((phi2 countDm 0 s).2).dev = s.dev + (if s.phi2Hi then 0 else 4) := by
  unfold phi2
  cases hp : s.phi2Hi <;> simp [hp, countDm_clk2_dev]

theorem countDm_phi2_phi2Hi (s : LoopState Nat) : ((phi2 countDm 0 s).2).phi2Hi = true := by
  unfold phi2
  cases hp : s.phi2Hi <;> simp [hp, countDm_clk2_phi2Hi]

theorem countDm_phi2_fst (s : LoopState Nat) : (phi2 countDm 0 s).1 = s.phi2Hi := by
  unfold phi2
  cases hp : s.phi2Hi <;> simp [hp]

theorem countDm_phi2_skipCycle (s : LoopState Nat) :
    ((phi2 countDm 0 s).2).skipCycle = s.skipCycle := by
  unfold phi2
  cases hp : s.phi2Hi <;> simp [hp, countDm_clk2_skipCycle]

theorem countDm_phi1_dev (s : LoopState Nat) : (phi1 countDm 0 s).dev = s.dev + 4 := by
  unfold phi1
  simp [countDm_clk2_dev]

theorem countDm_phi1_phi2Hi (s : LoopState Nat) : (phi1 countDm 0 s).phi2Hi = false := rfl

theorem countDm_phi1_skipCycle (s : LoopState Nat) :
    (phi1 countDm 0 s).skipCycle = s.skipCycle := by
  unfold phi1
  simp [countDm_clk2_skipCycle]

theorem countDm_stepPhase_dev (s : LoopState Nat) :
    (stepPhase countDm 0 s).dev =
      s.dev + (if s.skipCycle then 0 else if s.phi2Hi then 4 else 8) := by
  unfold stepPhase
  cases hs : s.skipCycle
  · simp only [hs, Bool.false_eq_true, if_false]
    rw [countDm_phi1_dev, countDm_phi2_dev]
    cases hp : s.phi2Hi <;> simp [hp] <;> omega
  · simp [hs]

theorem countDm_stepPhase_phi2Hi (s : LoopState Nat) :
    (stepPhase countDm 0 s).phi2Hi = (if s.skipCycle then s.phi2Hi else false) := by
  unfold stepPhase
  cases hs : s.skipCycle
  · simp only [hs, Bool.false_eq_true, if_false]
    rw [countDm_phi1_phi2Hi]
  · simp [hs]

theorem countDm_cycleStep_dev (s : LoopState Nat) :
    (cycleStep countDm 0 s).dev =
      s.dev + (if s.skipCycle then 0 else if s.phi2Hi then 4 else 8) := by
  rw [cycleStep, interrupt_state]
  exact countDm_stepPhase_dev s

theorem countDm_cycleStep_phi2Hi (s : LoopState Nat) :
    (cycleStep countDm 0 s).phi2Hi = (if s.skipCycle then s.phi2Hi else false) := by
  rw [cycleStep, interrupt_state]
  exact countDm_stepPhase_phi2Hi s

theorem countDm_runCycles_dev (n : Nat) :
    ∀ s : LoopState Nat, s.skipCycle = false → s.phi2Hi = false →
      (runCycles countDm 0 s n).dev = s.dev + 8 * n := by
  induction n with
  | zero => intro s _ _; simp [runCycles]
  | succ m ih =>
    intro s hs hp
    rw [runCycles_succ, ih (cycleStep countDm 0 s)
      (cycleStep_skipCycle countDm 0 s)
      (by rw [countDm_cycleStep_phi2Hi, hs]; simp)]
    rw [countDm_cycleStep_dev, hs, hp]
    simp
    omega

theorem countDm_runCycles_phi2Hi (n : Nat) (hn : 1 ≤ n) :
    ∀ s : LoopState Nat, s.skipCycle = false → (runCycles countDm 0 s n).phi2Hi = false := by
  induction n with
  | zero => omega
  | succ m ih =>
    intro s hs
    rcases Nat.eq_zero_or_pos m with rfl | hm
    · show (cycleStep countDm 0 s).phi2Hi = false
      rw [countDm_cycleStep_phi2Hi, hs]
      simp
    · rw [runCycles_succ]
      exact ih hm (cycleStep countDm 0 s) (cycleStep_skipCycle countDm 0 s)

theorem countDm_runCycles_dev_hi (n : Nat) (hn : 1 ≤ n) (s : LoopState Nat)
    (hs : s.skipCycle = false) (hp : s.phi2Hi = true) :
    (runCycles countDm 0 s n).dev = s.dev + 8 * n - 4 := by
  obtain ⟨m, rfl⟩ : ∃ m, n = m + 1 := ⟨n - 1, by omega⟩
  rw [runCycles_succ, countDm_runCycles_dev m (cycleStep countDm 0 s)
    (cycleStep_skipCycle countDm 0 s)
    (by rw [countDm_cycleStep_phi2Hi, hs]; simp)]
  rw [countDm_cycleStep_dev, hs, hp]
  simp
  omega

theorem countDm_quiet (s : LoopState Nat) (k : Nat) : irqAtCycle countDm 0 s k = false := by
  unfold irqAtCycle irqAt1
  rw [interrupt_fst]
  simp [countDm]

theorem countDm_write_reg_dev (s : LoopState Nat) (a v : Int) (hp : s.phi2Hi = false) :
    (write_reg countDm 0 s a v).dev = s.dev + 4 := by
  simp [write_reg, countDm_phi2_fst, countDm_phi2_dev, hp]

theorem countDm_write_reg_phi2Hi (s : LoopState Nat) (a v : Int) (hp : s.phi2Hi = false) :
    (write_reg countDm 0 s a v).phi2Hi = true := by
  simp [write_reg, countDm_phi2_fst, countDm_phi2_phi2Hi, hp]

theorem countDm_write_reg_skipCycle (s : LoopState Nat) (a v : Int) (hp : s.phi2Hi = false) :
    (write_reg countDm 0 s a v).skipCycle = s.skipCycle := by
  simp [write_reg, countDm_phi2_fst, countDm_phi2_skipCycle, hp]

theorem countDm_read_reg_dev (s : LoopState Nat) (a : Int) (hp : s.phi2Hi = false) :
    ((read_reg countDm 0 s a).1).dev = s.dev + 4 := by
  simp [read_reg, countDm_phi2_fst, countDm_phi2_dev, hp]

theorem countDm_read_reg_phi2Hi (s : LoopState Nat) (a : Int) (hp : s.phi2Hi = false) :
    ((read_reg countDm 0 s a).1).phi2Hi = true := by
  simp [read_reg, countDm_phi2_fst, countDm_phi2_phi2Hi, hp]

theorem countDm_read_reg_skipCycle (s : LoopState Nat) (a : Int) (hp : s.phi2Hi = false) :
    ((read_reg countDm 0 s a).1).skipCycle = s.skipCycle := by
  simp [read_reg, countDm_phi2_fst, countDm_phi2_skipCycle, hp]

/-- C3 counterexample: after processing the register write `0 W 5 3F` the
skip-next-cycle flag is NOT set (it stays false), contradicting the claim
that the engine records the consumed bus cycle by setting it; the consumed
cycle is instead recorded in the phase flag `phi2_hi`, which is set. -/
theorem c3_counterexample :
    (processRecord countDm 0 (initState 0 1) 0 ⟨0, 0, "5", 5, 0x3F, 0, 1, "0 W 5 3F"⟩).map
      (fun x => (x.1.skipCycle, x.1.phi2Hi)) = .ok (false, true) := by decide

/-- C3 (amended): every register read/write consumes exactly one bus cycle
as a side effect of asserting chip-select across a phase pair, but the
engine records this by setting the phase-is-high flag `phi2_hi` — NOT the
skip-next-cycle flag, which remains false; the following record's explicit
wait then completes the pending cycle without re-stepping the high phase,
so a register access with a `c₀`-cycle wait followed by an `N`-cycle-wait
record advances the eval-counting device by exactly `8 * (c₀ + N)` evals
(8 evals = one full bus cycle).  The skip-next-cycle flag is what PIN/PORT
writes set. -/
theorem c3_register_access_cycle (c₀ N : Nat) (a v : Int) (op1 : Nat)
    (hop : op1 < 2) (hN : 1 ≤ N) :
    ∃ (s1 s2 : LoopState Nat) (g1 g2 : List OutRec),
      processRecord countDm 0 (initState 0 1) 0 ⟨(c₀ : Int), op1, "5", a, v, 0, 1, ""⟩ =
        .ok (s1, 0, g1) ∧
      s1.dev = 8 * c₀ + 4 ∧ s1.phi2Hi = true ∧ s1.skipCycle = false ∧
      processRecord countDm 0 s1 0 ⟨(N : Int), 1, "TOD", 2, 1, 3, 2, ""⟩ =
        .ok (s2, 0, g2) ∧
      s2.dev = 8 * (c₀ + N) ∧
      (∀ (s : LoopState Nat) (cs w : Int) (ln : Nat) (li : String),
        s.skipCycle = false →
        (processRecord countDm 0 s cs ⟨0, 0, "IRQ", 0, w, 2, ln, li⟩).map
          (fun x => x.1.skipCycle) = .ok true) := by
  have hinit_skip : (initState (0 : Nat) 1).skipCycle = false := rfl
  have hinit_phi : (initState (0 : Nat) 1).phi2Hi = false := rfl
  have hinit_dev : (initState (0 : Nat) 1).dev = 0 := rfl
  have hA_skip : (runCycles countDm 0 (initState 0 1) c₀).skipCycle = false := by
    rcases Nat.eq_zero_or_pos c₀ with rfl | hc
    · exact hinit_skip
    · exact runCycles_skipCycle countDm 0 _ c₀ hc
  have hA_phi : (runCycles countDm 0 (initState 0 1) c₀).phi2Hi = false := by
    rcases Nat.eq_zero_or_pos c₀ with rfl | hc
    · exact hinit_phi
    · exact countDm_runCycles_phi2Hi c₀ hc _ hinit_skip
  have hA_dev : (runCycles countDm 0 (initState 0 1) c₀).dev = 8 * c₀ := by
    rw [countDm_runCycles_dev c₀ _ hinit_skip hinit_phi, hinit_dev]
    omega
  have hql1 := waitLoop_quiet countDm 0 c₀ (initState 0 1) (c₀ : Int) 0 0 false 0 []
    (Int.ofNat_nonneg c₀) (by ring) (fun k _ _ => countDm_quiet _ k)
  -- the pin-write conjunct, independent of the two records
  have hpin : ∀ (s : LoopState Nat) (cs w : Int) (ln : Nat) (li : String),
      s.skipCycle = false →
      (processRecord countDm 0 s cs ⟨0, 0, "IRQ", 0, w, 2, ln, li⟩).map
        (fun x => x.1.skipCycle) = .ok true := by
    intro s cs w ln li hskipf
    have hw := waitLoop_exit countDm 0 s 0 0 cs false 0 [] le_rfl
    simp only [processRecord, hw]
    rw [if_neg (by simp [hskipf])]
    simp only [applyOp]
    norm_num [hskipf]
    simp [Except.map]
  -- record 2, from any state with skip cleared and the phase flag set
  have hrec2 : ∀ s1 : LoopState Nat, s1.skipCycle = false → s1.phi2Hi = true →
      ∃ s2 g2, processRecord countDm 0 s1 0 ⟨(N : Int), 1, "TOD", 2, 1, 3, 2, ""⟩ =
        .ok (s2, 0, g2) ∧ s2.dev = s1.dev + 8 * N - 4 := by
    intro s1 hs1 hp1
    have hql2 := waitLoop_quiet countDm 0 N s1 (N : Int) 0 0 false 0 []
      (Int.ofNat_nonneg N) (by ring) (fun k _ _ => countDm_quiet _ k)
    have hB_skip : (runCycles countDm 0 s1 N).skipCycle = false :=
      runCycles_skipCycle countDm 0 s1 N hN
    refine ⟨{ runCycles countDm 0 s1 N with
      busI := read_pin (countDm.busO (runCycles countDm 0 s1 N).dev)
        (runCycles countDm 0 s1 N).busI 2 1 }, [⟨(N : Int), "R", "TOD", 1, true⟩], ?_, ?_⟩
    · simp only [processRecord, hql2]
      rw [if_neg (by simp [hB_skip])]
      simp only [applyOp]
      norm_num [ite_self, ops]
      rfl
    · show (runCycles countDm 0 s1 N).dev = s1.dev + 8 * N - 4
      exact countDm_runCycles_dev_hi N hN s1 hs1 hp1
  -- record 1: dispatch on read vs write
  have hop01 : op1 = 0 ∨ op1 = 1 := by omega
  rcases hop01 with rfl | rfl
  · -- register write
    have key1 : processRecord countDm 0 (initState 0 1) 0 ⟨(c₀ : Int), 0, "5", a, v, 0, 1, ""⟩ =
        .ok (write_reg countDm 0 (runCycles countDm 0 (initState 0 1) c₀) a v, 0,
          [⟨(c₀ : Int), "W", "5", v, false⟩]) := by
      simp only [processRecord, hql1]
      rw [if_neg (by simp [hA_skip])]
      simp only [applyOp]
      norm_num [ite_self, ops]
    have hdev1 : (write_reg countDm 0 (runCycles countDm 0 (initState 0 1) c₀) a v).dev =
        8 * c₀ + 4 := by
      rw [countDm_write_reg_dev _ a v hA_phi, hA_dev]
    have hphi1 := countDm_write_reg_phi2Hi (runCycles countDm 0 (initState 0 1) c₀) a v hA_phi
    have hskip1 : (write_reg countDm 0 (runCycles countDm 0 (initState 0 1) c₀) a v).skipCycle =
        false := by
      rw [countDm_write_reg_skipCycle _ a v hA_phi, hA_skip]
    obtain ⟨s2, g2, key2, hdev2⟩ := hrec2 _ hskip1 hphi1
    refine ⟨_, s2, _, g2, key1, hdev1, hphi1, hskip1, key2, ?_, hpin⟩
    rw [hdev2, hdev1]
    omega
  · -- register read
    have key1 : processRecord countDm 0 (initState 0 1) 0 ⟨(c₀ : Int), 1, "5", a, v, 0, 1, ""⟩ =
        .ok ((read_reg countDm 0 (runCycles countDm 0 (initState 0 1) c₀) a).1, 0,
          [⟨(c₀ : Int), "R", "5",
            (read_reg countDm 0 (runCycles countDm 0 (initState 0 1) c₀) a).2, false⟩]) := by
      simp only [processRecord, hql1]
      rw [if_neg (by simp [hA_skip])]
      simp only [applyOp]
      norm_num [ite_self, ops]
    have hdev1 : ((read_reg countDm 0 (runCycles countDm 0 (initState 0 1) c₀) a).1).dev =
        8 * c₀ + 4 := by
      rw [countDm_read_reg_dev _ a hA_phi, hA_dev]
    have hphi1 := countDm_read_reg_phi2Hi (runCycles countDm 0 (initState 0 1) c₀) a hA_phi
    have hskip1 : ((read_reg countDm 0 (runCycles countDm 0 (initState 0 1) c₀) a).1).skipCycle =
        false := by
      rw [countDm_read_reg_skipCycle _ a hA_phi, hA_skip]
    obtain ⟨s2, g2, key2, hdev2⟩ := hrec2 _ hskip1 hphi1
    refine ⟨_, s2, _, g2, key1, hdev1, hphi1, hskip1, key2, ?_, hpin⟩
    rw [hdev2, hdev1]
    omega

theorem c3_register_access_cycle_witness :
    (0 : Nat) < 2 ∧ (1 : Nat) ≤ 3 ∧
    (∃ (s1 s2 : LoopState Nat) (g1 g2 : List OutRec),
      processRecord countDm 0 (initState 0 1) 0 ⟨((2 : Nat) : Int), 0, "5", 5, 0x3F, 0, 1, ""⟩ =
        .ok (s1, 0, g1) ∧
      s1.dev = 8 * 2 + 4 ∧ s1.phi2Hi = true ∧ s1.skipCycle = false ∧
      processRecord countDm 0 s1 0 ⟨((3 : Nat) : Int), 1, "TOD", 2, 1, 3, 2, ""⟩ =
        .ok (s2, 0, g2) ∧
      s2.dev = 8 * (2 + 3) ∧
      (∀ (s : LoopState Nat) (cs w : Int) (ln : Nat) (li : String),
        s.skipCycle = false →
        (processRecord countDm 0 s cs ⟨0, 0, "IRQ", 0, w, 2, ln, li⟩).map
          (fun x => x.1.skipCycle) = .ok true)) :=
  ⟨by decide, by decide, c3_register_access_cycle 2 3 5 0x3F 0 (by decide) (by decide)⟩

/-! ### Composition lemmas for iterated cycles -/

theorem runCycles_add (dm : DeviceModel σ) (tt : Nat) :
    ∀ (m n : Nat) (s : LoopState σ),
      runCycles dm tt s (m + n) = runCycles dm tt (runCycles dm tt s m) n := by
  intro m
  induction m with
  | zero => intro n s; rw [Nat.zero_add]; rfl
  | succ k ih =>
    intro n s
    have h : k + 1 + n = (k + n) + 1 := by omega
    rw [h, runCycles_succ, runCycles_succ, ih n (cycleStep dm tt s)]

theorem irqAtCycle_runCycles (dm : DeviceModel σ) (tt : Nat) (s : LoopState σ)
    (m k : Nat) (hk : 1 ≤ k) :
    irqAtCycle dm tt (runCycles dm tt s m) k = irqAtCycle dm tt s (m + k) := by
  unfold irqAtCycle
  rw [← runCycles_add dm tt m (k - 1) s]
  have h : m + (k - 1) = m + k - 1 := by omega
  rw [h]

/-- C1: for an R/W record with requested cycle delta `N`, if the (unique)
falling edge of the active-low interrupt output is detected `i` cycles into
the wait with `i < N`, the engine emits a synthesized `I` record whose
cycle delta is `i` plus the carried-over cycles (with the captured ICR
value), resets the carried-cycle counter, and the eventual output record
for the original instruction carries the remaining `N - i` cycles. -/
theorem c1_interrupt_splice (σ : Type) (dm : DeviceModel σ) (tt : Nat) (s : LoopState σ)
    (cs : Int) (r : Parsed) (N i : Nat)
    (hop : r.ixOp < 2) (hcyc : r.cycles = (N : Int)) (h1 : 1 ≤ i) (hi : i < N)
    (hedge : ∀ k, k < N + 1 → 1 ≤ k → (irqAtCycle dm tt s k = true ↔ k = i)) :
    ∃ (sf : LoopState σ) (w : Int),
      processRecord dm tt s cs r =
        .ok (sf, 0,
          [⟨cs + (i : Int), "I", "D", (icrAtCycle dm tt s i : Int), false⟩,
           ⟨(N : Int) - (i : Int), ops.getD r.ixOp "", r.addrName, w,
             decide (1 < r.obj)⟩]) := by
  have hedgei : irqAtCycle dm tt s i = true := (hedge i (by omega) h1).mpr rfl
  have hqpre : ∀ k, 1 ≤ k → k < i → irqAtCycle dm tt s k = false := by
    intro k hk1 hk2
    rcases hh : irqAtCycle dm tt s k
    · rfl
    · exact absurd ((hedge k (by omega) hk1).mp hh) (by omega)
  have he := waitLoop_edge dm tt i s r.cycles 0 cs false 0 [] h1
    (by rw [hcyc]; push_cast; omega) hqpre hedgei
  have hq2 : ∀ k, 1 ≤ k → k ≤ N - i → irqAtCycle dm tt (runCycles dm tt s i) k = false := by
    intro k hk1 hk2
    rw [irqAtCycle_runCycles dm tt s i k hk1]
    rcases hh : irqAtCycle dm tt s (i + k)
    · rfl
    · exact absurd ((hedge (i + k) (by omega) (by omega)).mp hh) (by omega)
  have hquiet := waitLoop_quiet dm tt (N - i) (runCycles dm tt s i) (r.cycles - (0 + (i : Int)))
    0 0 false (icrAtCycle dm tt s i)
    ([] ++ [⟨cs + (0 + (i : Int)), "I", "D", (icrAtCycle dm tt s i : Int), false⟩])
    (by rw [hcyc]; push_cast; omega) (by rw [hcyc]; push_cast; omega) hq2
  rw [hquiet] at he
  have hcomp : runCycles dm tt (runCycles dm tt s i) (N - i) = runCycles dm tt s N := by
    rw [← runCycles_add dm tt i (N - i) s]
    congr 1
    omega
  rw [hcomp] at he
  have hNi : ¬ (N - i = 0) := by omega
  rw [if_neg hNi] at he
  have hsk : (runCycles dm tt s N).skipCycle = false :=
    runCycles_skipCycle dm tt s N (by omega)
  refine ⟨(applyOp dm tt (runCycles dm tt s N) 0 (r.cycles - (0 + (i : Int))) r).1,
    (applyOp dm tt (runCycles dm tt s N) 0 (r.cycles - (0 + (i : Int))) r).2.2, ?_⟩
  simp only [processRecord, he]
  rw [if_neg (by simp [hsk])]
  rw [if_pos hop]
  rw [applyOp_cs_rw dm tt _ 0 (r.cycles - (0 + (i : Int))) r hop]
  rw [if_neg (show ¬ (false = true) by simp)]
  simp only [List.nil_append, List.append_nil, List.cons_append, List.singleton_append]
  rw [hcyc]
  norm_num

theorem c1_interrupt_splice_witness :
    ((⟨10, 0, "5", 5, 0x3F, 0, 1, "10 W 5 3F"⟩ : Parsed).ixOp < 2) ∧
    ((⟨10, 0, "5", 5, 0x3F, 0, 1, "10 W 5 3F"⟩ : Parsed).cycles = ((10 : Nat) : Int)) ∧
    (1 ≤ (3 : Nat)) ∧ ((3 : Nat) < 10) ∧
    (∀ k, k < (10 : Nat) + 1 → 1 ≤ k →
      (irqAtCycle edgeDm 0 (initState 0 1) k = true ↔ k = 3)) ∧
    (∃ (sf : LoopState Nat) (w : Int),
      processRecord edgeDm 0 (initState 0 1) 0 ⟨10, 0, "5", 5, 0x3F, 0, 1, "10 W 5 3F"⟩ =
        .ok (sf, 0,
          [⟨0 + ((3 : Nat) : Int), "I", "D", (icrAtCycle edgeDm 0 (initState 0 1) 3 : Int),
            false⟩,
           ⟨((10 : Nat) : Int) - ((3 : Nat) : Int),
             ops.getD (⟨10, 0, "5", 5, 0x3F, 0, 1, "10 W 5 3F"⟩ : Parsed).ixOp "",
             (⟨10, 0, "5", 5, 0x3F, 0, 1, "10 W 5 3F"⟩ : Parsed).addrName, w,
             decide (1 < (⟨10, 0, "5", 5, 0x3F, 0, 1, "10 W 5 3F"⟩ : Parsed).obj)⟩])) :=
  ⟨by decide, by decide, by decide, by decide, by decide,
    c1_interrupt_splice Nat edgeDm 0 (initState 0 1) 0 ⟨10, 0, "5", 5, 0x3F, 0, 1, "10 W 5 3F"⟩
      10 3 (by decide) (by decide) (by decide) (by decide) (by decide)⟩

theorem sumD_zero (l : List OutRec) (h : ∀ x ∈ l, x.delta = 0) : sumD l = 0 := by
  induction l with
  | nil => rfl
  | cons a t ih =>
    simp only [sumD, List.map_cons, List.sum_cons]
    rw [h a (by simp)]
    have := ih (fun x hx => h x (by simp [hx]))
    simp only [sumD] at this
    rw [this]
    rfl

/-- C2 counterexample: the trace `0 W 5 00` / `2 I D 00` / `3 W 5 01`
(quiet device) produces the two non-interrupt output records `0 W 5 00` and
`5 W 5 01` with nothing between them; the sum of the emitted cycle deltas
between them is 5, not the cycle delta 3 requested by the input line of the
second record: the interrupt input record's 2 cycles were folded in. -/
theorem c2_counterexample :
    (processTrace quietDm 0 (initState () 1) 0
      [⟨0, 0, "5", 5, 0, 0, 1, "0 W 5 00"⟩, ⟨2, 2, "D", 0xD, 0, 0, 2, "2 I D 00"⟩,
       ⟨3, 0, "5", 5, 1, 0, 3, "3 W 5 01"⟩]).map (fun x => x.2.2) =
      .ok [[⟨0, "W", "5", 0, false⟩], [], [⟨5, "W", "5", 1, false⟩]] ∧
    (5 : Int) ≠ 3 ∧
    parse_line 2 "2 I D 00" 2 "I" "D" "00" = .ok ⟨2, 2, "D", 0xD, 0, 0, 2, "2 I D 00"⟩ :=
  ⟨by decide, by decide, by decide⟩

/-- C2 (amended): interrupt splicing never changes the relative order of
non-interrupt output records; and between two consecutive non-interrupt
output records, the emitted cycle deltas (those of spliced `I` records
included) sum to the cycle delta requested by the input line of the second
record PLUS the requested deltas of any register-targeted interrupt input
records processed between the two (the engine folds those cycles into the
carried counter rather than dropping them). -/
theorem c2_order_and_cycle_conservation (σ : Type) (dm : DeviceModel σ) (tt : Nat)
    (s₀ : LoopState σ) (cs₀ : Int) (pre mid : List Parsed) (r₁ r₂ : Parsed)
    (sf : LoopState σ) (csf : Int) (gs : List (List OutRec))
    (h1 : r₁.ixOp < 2) (h2 : r₂.ixOp < 2)
    (hmid : ∀ r ∈ mid, r.ixOp = 2 ∧ r.obj = 0)
    (hok : processTrace dm tt s₀ cs₀ (pre ++ r₁ :: (mid ++ [r₂])) = .ok (sf, csf, gs)) :
    ((gs.flatten.filter (fun x => !(x.op == "I"))).map (fun x => (x.op, x.target)) =
      (((pre ++ r₁ :: (mid ++ [r₂])).filter (fun r => r.ixOp < 2)).map
        (fun r => (ops.getD r.ixOp "", r.addrName)))) ∧
    ∃ gpre g₁ gmid g₂ pre₁ own₁ post₁ pre₂ own₂ post₂,
      gs = gpre ++ g₁ :: (gmid ++ [g₂]) ∧ gpre.length = pre.length ∧
      gmid.length = mid.length ∧
      g₁ = pre₁ ++ own₁ :: post₁ ∧ g₂ = pre₂ ++ own₂ :: post₂ ∧
      own₁.op = ops.getD r₁.ixOp "" ∧ own₁.target = r₁.addrName ∧
      own₂.op = ops.getD r₂.ixOp "" ∧ own₂.target = r₂.addrName ∧
      (∀ x ∈ post₁, x.op = "I" ∧ x.delta = 0) ∧
      (∀ g ∈ gmid, ∀ x ∈ g, x.op = "I") ∧
      (∀ x ∈ pre₂, x.op = "I") ∧
      sumD post₁ + sumD gmid.flatten + sumD pre₂ + own₂.delta =
        sumCycles mid + r₂.cycles := by
  constructor
  · exact processTrace_order dm tt _ s₀ cs₀ sf csf gs hok
  · obtain ⟨sA, csA, gpre, hs, hpre, hbs, rfl, hlenpre⟩ :=
      processTrace_append_inv dm tt (r₁ :: (mid ++ [r₂])) pre s₀ cs₀ sf csf gs hok
    obtain ⟨sB, csB, g₁, hs', hr1, hrest, rfl⟩ :=
      processTrace_cons_inv dm tt sA csA r₁ (mid ++ [r₂]) sf csf hs hbs
    obtain ⟨hcsB, pre₁, own₁, post₁, hg1, hpre₁, hop₁, htgt₁, hpin₁, hpost₁, hsum₁⟩ :=
      processRecord_rw dm tt sA csA r₁ sB csB g₁ h1 hr1
    subst hcsB
    obtain ⟨sC, csC, gmid, g2s, hmidrun, hr2run, rfl, hlenmid⟩ :=
      processTrace_append_inv dm tt [r₂] mid sB 0 sf csf hs' hrest
    obtain ⟨sD, csD, g₂, gnil, hr2, hnil, rfl⟩ :=
      processTrace_cons_inv dm tt sC csC r₂ [] sf csf g2s hr2run
    have hnil' : gnil = [] := by
      rw [processTrace] at hnil
      simp only [Except.ok.injEq, Prod.mk.injEq] at hnil
      exact hnil.2.2.symm
    subst hnil'
    obtain ⟨hall, hsummid⟩ := processTrace_iregs dm tt mid sB 0 sC csC gmid hmid hmidrun
    obtain ⟨hcsD, pre₂, own₂, post₂, hg2, hpre₂, hop₂, htgt₂, hpin₂, hpost₂, hsum₂⟩ :=
      processRecord_rw dm tt sC csC r₂ sD csD g₂ h2 hr2
    refine ⟨gpre, g₁, gmid, g₂, pre₁, own₁, post₁, pre₂, own₂, post₂, by simp, hlenpre,
      hlenmid, hg1, hg2, hop₁, htgt₁, hop₂, htgt₂,
      (fun x hx => ⟨(hpost₁ x hx).1, (hpost₁ x hx).2.2⟩),
      (fun g hg x hx => (hall g hg x hx).1),
      (fun x hx => (hpre₂ x hx).1), ?_⟩
    have hz : sumD post₁ = 0 := sumD_zero post₁ (fun x hx => (hpost₁ x hx).2.2)
    omega

set_option maxRecDepth 8000 in
theorem c2_order_and_cycle_conservation_witness :
    ((⟨0, 0, "5", 5, 0, 0, 1, "0 W 5 00"⟩ : Parsed).ixOp < 2) ∧
    ((⟨3, 0, "5", 5, 1, 0, 3, "3 W 5 01"⟩ : Parsed).ixOp < 2) ∧
    (∀ r ∈ [(⟨2, 2, "D", 0xD, 0, 0, 2, "2 I D 00"⟩ : Parsed)], r.ixOp = 2 ∧ r.obj = 0) ∧
    (processTrace quietDm 0 (initState () 1) 0
        ([] ++ (⟨0, 0, "5", 5, 0, 0, 1, "0 W 5 00"⟩ : Parsed) ::
          ([⟨2, 2, "D", 0xD, 0, 0, 2, "2 I D 00"⟩] ++ [⟨3, 0, "5", 5, 1, 0, 3, "3 W 5 01"⟩])) =
      .ok (⟨(), 1, false, true, 52882833419, true, true, 0, false, false⟩, 0,
        [[⟨0, "W", "5", 0, false⟩], [], [⟨5, "W", "5", 1, false⟩]])) ∧
    ((([[⟨0, "W", "5", 0, false⟩], [], [⟨5, "W", "5", 1, false⟩]] :
          List (List OutRec)).flatten.filter
          (fun x => !(x.op == "I"))).map (fun x => (x.op, x.target)) =
      (((([] ++ (⟨0, 0, "5", 5, 0, 0, 1, "0 W 5 00"⟩ : Parsed) ::
          ([⟨2, 2, "D", 0xD, 0, 0, 2, "2 I D 00"⟩] ++
            [⟨3, 0, "5", 5, 1, 0, 3, "3 W 5 01"⟩]) : List Parsed)).filter
          (fun r => r.ixOp < 2)).map
        (fun r => (ops.getD r.ixOp "", r.addrName)))) ∧
    (∃ gpre g₁ gmid g₂ pre₁ own₁ post₁ pre₂ own₂ post₂,
      ([[⟨0, "W", "5", 0, false⟩], [], [⟨5, "W", "5", 1, false⟩]] : List (List OutRec)) =
        gpre ++ g₁ :: (gmid ++ [g₂]) ∧
      gpre.length = ([] : List Parsed).length ∧
      gmid.length = [(⟨2, 2, "D", 0xD, 0, 0, 2, "2 I D 00"⟩ : Parsed)].length ∧
      g₁ = pre₁ ++ own₁ :: post₁ ∧ g₂ = pre₂ ++ own₂ :: post₂ ∧
      own₁.op = ops.getD (⟨0, 0, "5", 5, 0, 0, 1, "0 W 5 00"⟩ : Parsed).ixOp "" ∧
      own₁.target = (⟨0, 0, "5", 5, 0, 0, 1, "0 W 5 00"⟩ : Parsed).addrName ∧
      own₂.op = ops.getD (⟨3, 0, "5", 5, 1, 0, 3, "3 W 5 01"⟩ : Parsed).ixOp "" ∧
      own₂.target = (⟨3, 0, "5", 5, 1, 0, 3, "3 W 5 01"⟩ : Parsed).addrName ∧
      (∀ x ∈ post₁, x.op = "I" ∧ x.delta = 0) ∧
      (∀ g ∈ gmid, ∀ x ∈ g, x.op = "I") ∧
      (∀ x ∈ pre₂, x.op = "I") ∧
      sumD post₁ + sumD gmid.flatten + sumD pre₂ + own₂.delta =
        sumCycles [(⟨2, 2, "D", 0xD, 0, 0, 2, "2 I D 00"⟩ : Parsed)] +
          (⟨3, 0, "5", 5, 1, 0, 3, "3 W 5 01"⟩ : Parsed).cycles) :=
  ⟨by decide, by decide, by decide, by decide,
    c2_order_and_cycle_conservation Unit quietDm 0 (initState () 1) 0 []
      [⟨2, 2, "D", 0xD, 0, 0, 2, "2 I D 00"⟩] ⟨0, 0, "5", 5, 0, 0, 1, "0 W 5 00"⟩
      ⟨3, 0, "5", 5, 1, 0, 3, "3 W 5 01"⟩
      ⟨(), 1, false, true, 52882833419, true, true, 0, false, false⟩ 0
      [[⟨0, "W", "5", 0, false⟩], [], [⟨5, "W", "5", 1, false⟩]]
      (by decide) (by decide) (by decide) (by decide)⟩

end CiaSim
